import Mathlib

/-!
# Verification of the workflow-orchestration core

Shallow embedding, in Lean 4, of the pure core of the workflow
orchestration layer: the semantic-cron evaluator (template expansion,
shape-condition evaluation, the join engine, signal evaluation, delta
computation), the projection library, the workflow helpers
(`pollUntilIdle`, `collectItems`) and the cancellation-checkpoint
structure of the `lifecycle.harvest` and `semantic.cron` workflows.

Conventions of the embedding:
* JS numbers are modelled as `ℚ` (all arithmetic exercised here is exact);
  `NaN`-producing primitives (`Number(s)`, `new Date(s).getTime()`) are
  modelled as `Option ℚ` valued oracles, with `none` playing the role of
  `NaN` (every JS comparison against `NaN` is `false`).
* JS strings are `String`, or `List Char` where the code works character
  by character (the template expander).
* `null`/`undefined` object fields are `Option` fields.
* JS `Map` iteration order (insertion order, with `set` on an existing
  key replacing the value in place) is modelled by an association list
  with exactly those update semantics.
* Effectful workflow code is modelled as a deterministic function of an
  oracle describing the upstream and the task store, returning the list
  of upstream side effects (the trace) next to the result.
-/

namespace Schwartz

/- Mathlib marks the `Rat` arithmetic kernels `irreducible`; restore the
default reducibility locally so that concrete runs of the embedded code
evaluate under `decide`/`rfl`. -/
attribute [local semireducible] Rat.mul Rat.add Rat.sub Rat.inv

/-! ## 1. Template expander (`expandTemplates`, part_001 lines 143–163)

The source stringifies the configuration (`JSON.stringify`), substitutes
`{{key}}` for every variable with `String.replaceAll`, and then scans the
substituted text with the regex `/\{\{[^}]+\}\}/g`; any match is a
validation failure listing the distinct matches.  The embedding works on
the textual form (`List Char`) directly, exactly as the source does. -/

/-- JS `String.prototype.replaceAll` with a nonempty plain-string pattern:
replace non-overlapping occurrences left to right.  Structural recursion
on a fuel that bounds the input length (each step consumes at least one
character, so `fuel = s.length` is exact). -/
def replFuel (p : Char) (ps rep : List Char) : ℕ → List Char → List Char
  | _, [] => []
  | 0, s => s
  | fuel + 1, c :: cs =>
    if (p :: ps).isPrefixOf (c :: cs) then
      rep ++ replFuel p ps rep fuel (cs.drop ps.length)
    else
      c :: replFuel p ps rep fuel cs

/-- `s.replaceAll(pat, rep)`; the empty pattern never occurs at the call
site (`{{` ++ key ++ `}}` has length ≥ 4) and is mapped to the identity. -/
def replaceAll (s pat rep : List Char) : List Char :=
  match pat with
  | [] => s
  | p :: ps => replFuel p ps rep s.length s

/-- One attempt of the regex `\{\{[^}]+\}\}` at the head of the list:
`{{`, then a maximal nonempty run of non-`}` characters, then `}}`.
Returns the match and the rest of the input after the match. -/
def tokenAt (s : List Char) : Option (List Char × List Char) :=
  match s with
  | c1 :: c2 :: rest =>
    if c1 = '{' ∧ c2 = '{' then
      let pre := rest.takeWhile (fun c => c ≠ '}')
      match rest.dropWhile (fun c => c ≠ '}') with
      | d1 :: d2 :: rest2 =>
        if d1 = '}' ∧ d2 = '}' ∧ ¬ pre.isEmpty then
          some ('{' :: '{' :: (pre ++ ['}', '}']), rest2)
        else none
      | _ => none
    else none
  | _ => none

/-- All matches of the global regex scan `expanded.match(/\{\{[^}]+\}\}/g)`:
leftmost, non-overlapping, resuming after each match.  Structural
recursion on a fuel bounding the input length; every step consumes at
least one character (`tokenAt_rest_length`), so the fuel-exhausted case
is unreachable when `fuel = s.length`. -/
def scanFuel : ℕ → List Char → List (List Char)
  | _, [] => []
  | 0, _ => []
  | fuel + 1, c :: cs =>
    match tokenAt (c :: cs) with
    | some (tok, rest) => tok :: scanFuel fuel rest
    | none => scanFuel fuel cs

/-- The full scan, with exact fuel. -/
def scanTokens (s : List Char) : List (List Char) :=
  scanFuel s.length s

/-- `[...new Set(l)]`: first occurrences, in order.  Structural recursion
on a fuel bounding the list length (`filter` never lengthens a list, so
the fuel-exhausted case is unreachable at `fuel = l.length`). -/
def dedupFuel {α : Type} [DecidableEq α] : ℕ → List α → List α
  | _, [] => []
  | 0, l => l
  | fuel + 1, x :: xs => x :: dedupFuel fuel (xs.filter (fun y => y ≠ x))

/-- `[...new Set(l)]`, with exact fuel. -/
def dedupFirst {α : Type} [DecidableEq α] (l : List α) : List α :=
  dedupFuel l.length l

/-- Outcome of `expandTemplates`: either the substituted text (parsed back
into a configuration by the source), or a `WorkflowError` at step
`validate` listing the distinct unresolved tokens. -/
inductive TemplateOutcome
  | ok (expanded : List Char)
  | validationError (unresolvedDistinct : List (List Char)) (step : String)
deriving DecidableEq, Repr

/-- `expandTemplates` (part_001 lines 143–163) on the configuration's
textual form: fold `replaceAll("{{key}}", value)` over the variables in
order, then fail iff the scan finds a residual `{{…}}` match. -/
def expandTemplates (text : List Char) (vars : List (String × String)) :
    TemplateOutcome :=
  let expanded := vars.foldl
    (fun acc kv => replaceAll acc ('{' :: '{' :: kv.1.toList ++ ['}', '}']) kv.2.toList)
    text
  match scanTokens expanded with
  | [] => .ok expanded
  | toks => .validationError (dedupFirst toks) "validate"

/-- The substituted text, before the residual scan. -/
def applyVariables (text : List Char) (vars : List (String × String)) :
    List Char :=
  vars.foldl
    (fun acc kv => replaceAll acc ('{' :: '{' :: kv.1.toList ++ ['}', '}']) kv.2.toList)
    text

/-- A complete `{{…}}` token: a full match of the regex attempt
`tokenAt` consuming the whole list, i.e. `{{`, a nonempty run of non-`}`
characters, `}}`. -/
def isToken (t : List Char) : Bool :=
  decide (tokenAt t = some (t, []))

/-! ## 2. Upstream items and the projection library (projections.ts)

A webset item is a `Record<string, unknown>`; the embedding narrows it to
the fields the projection and classification code reads or writes.  A
field that is absent or `null`/`undefined` in JS is `none`. -/

/-- `properties.company` / `.person` / `.article` / `.researchPaper` /
`.custom` sub-objects; the code reads `name` on the first two and `title`
on the rest. -/
structure EntityProps where
  name : Option String := none
  title : Option String := none
deriving DecidableEq, Repr

/-- The `properties` bag of a webset item. -/
structure ItemProps where
  type : Option String := none
  url : Option String := none
  description : Option String := none
  content : Option String := none
  company : Option EntityProps := none
  person : Option EntityProps := none
  article : Option EntityProps := none
  researchPaper : Option EntityProps := none
  custom : Option EntityProps := none
deriving DecidableEq, Repr

/-- One element of `item.evaluations`. -/
structure EvalRec where
  criterion : Option String := none
  satisfied : Option String := none
  reasoning : Option String := none
  references : Option (List String) := none
deriving DecidableEq, Repr

/-- One element of `item.enrichments` (raw enrichment result). -/
structure EnrichRec where
  enrichmentId : Option String := none
  description : Option String := none
  format : Option String := none
  status : Option String := none
  result : Option (List String) := none
  reasoning : Option String := none
deriving DecidableEq, Repr

/-- A webset item, narrowed to the fields read or written by
`projectItem`, the shape evaluator and `classifyItem`.  Raw items carry
`properties`/`evaluations`/`enrichments`/`createdAt`; projected items
carry top-level `name`/`url`/`entityType`/`description`. -/
structure Item where
  id : Option String := none
  properties : Option ItemProps := none
  evaluations : Option (List EvalRec) := none
  enrichments : Option (List EnrichRec) := none
  name : Option String := none
  url : Option String := none
  entityType : Option String := none
  description : Option String := none
  createdAt : Option String := none
deriving DecidableEq, Repr

/-- Result of `extractItemFields` (projections.ts lines 748–773). -/
structure ExtractedFields where
  name : String
  url : String
  entityType : String
  description : String
deriving DecidableEq, Repr

/-- `extractItemFields`: entity-name precedence
`company.name → person.name → article.title → researchPaper.title →
custom.title → description → "unknown"`. -/
def extractItemFields (item : Item) : ExtractedFields :=
  match item.properties with
  | none => { name := "unknown", url := "", entityType := "unknown", description := "" }
  | some props =>
    { name :=
        (((((props.company.bind (·.name)).or
            (props.person.bind (·.name))).or
            (props.article.bind (·.title))).or
            ((props.researchPaper.bind (·.title)).or
            (props.custom.bind (·.title)))).or
            props.description).getD "unknown"
      url := props.url.getD ""
      entityType := props.type.getD "unknown"
      description := props.description.getD "" }

/-- Projection of one evaluation: keep `criterion` and `satisfied` only. -/
def projectEval (e : EvalRec) : EvalRec :=
  { criterion := e.criterion, satisfied := e.satisfied }

/-- Projection of one enrichment result: keep `description`, `format`,
`result` only. -/
def projectEnrich (e : EnrichRec) : EnrichRec :=
  { description := e.description, format := e.format, result := e.result }

/-- `projectItem` (projections.ts lines 783–808). -/
def projectItem (item : Item) : Item :=
  let f := extractItemFields item
  { id := item.id
    name := some f.name
    url := some f.url
    entityType := some f.entityType
    description := some f.description
    evaluations := item.evaluations.map (fun l => l.map projectEval)
    enrichments := item.enrichments.map (fun l => l.map projectEnrich) }

/-- `hasSatisfiedEvaluation` (projections.ts lines 777–781); the same
predicate is inlined in semantic.cron's collect step (part_001 lines
880–886): no evaluations ⇒ pass, else at least one `satisfied === "yes"`. -/
def hasSatisfiedEvaluation (item : Item) : Bool :=
  match item.evaluations with
  | none => true
  | some [] => true
  | some evals => evals.any (fun e => e.satisfied == some "yes")

/-! ## 3. Enrichment resolution and the shape evaluator
(part_001 lines 165–279) -/

/-- Oracles for the JS primitives used by the condition evaluator:
`Number(s)` and `new Date(s).getTime()` (with `none` for `NaN`),
`new RegExp(p).test(s)`, and `Date.now()`. -/
structure JsEnv where
  parseNumber : String → Option ℚ
  regexTest : String → String → Bool
  parseDate : String → Option ℚ
  now : ℚ

/-- The `value` field of a shape condition:
`number | string | string[] | undefined`. -/
inductive CondValue
  | num (q : ℚ)
  | str (s : String)
  | arr (l : List String)
  | undef
deriving DecidableEq, Repr

/-- A shape condition. -/
structure Condition where
  enrichment : String
  operator : String
  value : CondValue := .undef
deriving DecidableEq, Repr

/-- A resolved enrichment: description, stringified results, format. -/
structure ResolvedEnrichment where
  description : String
  result : Option (List String)
  format : Option String := none
deriving DecidableEq, Repr

/-- `Map.get` on a JS `Map<string, α>` held as an insertion-ordered
association list with unique keys. -/
def lookupAssoc {α : Type} (m : List (String × α)) (k : String) : Option α :=
  (m.find? (fun p => p.1 == k)).map (·.2)

/-- `Map.set` on the same representation: replace in place, else append. -/
def mapSet {α : Type} : List (String × α) → String → α → List (String × α)
  | [], k, v => [(k, v)]
  | (k', v') :: rest, k, v =>
    if k' = k then (k, v) :: rest else (k', v') :: mapSet rest k v

/-- `resolveEnrichmentDescriptions` (part_001 lines 173–201): re-key each
item's enrichment results by description; results whose enrichment id is
unknown (or whose description is falsy) are dropped. -/
def resolveEnrichmentDescriptions (items : List Item)
    (enrichmentMap : List (String × String)) :
    List (Item × List ResolvedEnrichment) :=
  items.map fun item =>
    match item.enrichments with
    | none => (item, [])
    | some raws =>
      (item, raws.filterMap fun e =>
        match e.enrichmentId.bind (lookupAssoc enrichmentMap) with
        | some desc =>
          if desc = "" then none
          else some { description := desc, result := e.result, format := e.format }
        | none => none)

/-- JS `toLowerCase`, restricted to the character-wise mapping. -/
def jsToLower (s : String) : String := s.map Char.toLower

/-- JS `String.prototype.includes` (substring test). -/
def containsSub : List Char → List Char → Bool
  | hay, needle =>
    if needle.isPrefixOf hay then true
    else
      match hay with
      | [] => false
      | _ :: t => containsSub t needle

/-- The numeric coercion JS applies to `condition.value` on the
relational branches (`num >= target` etc.) and on `days * 86400000`:
numbers pass through, strings go through `Number(·)`, arrays coerce via
their comma-joined string form, `undefined` is `NaN`. -/
def condTargetNum (env : JsEnv) : CondValue → Option ℚ
  | .num q => some q
  | .str s => env.parseNumber s
  | .arr l => env.parseNumber (String.intercalate "," l)
  | .undef => none

/-- The relational comparison chosen by the operator (only reached for
`gte`/`gt`/`lte`/`lt`). -/
def relCompare (op : String) (num target : ℚ) : Bool :=
  if op = "gte" then decide (num ≥ target)
  else if op = "gt" then decide (num > target)
  else if op = "lte" then decide (num ≤ target)
  else if op = "lt" then decide (num < target)
  else false

/-- `evaluateCondition` (part_001 lines 203–267).  `exists` is handled
first; every other operator fails on a `null`/`undefined`/empty result.
Branches whose `condition.value` has the wrong runtime type (where the JS
code would throw a `TypeError`, e.g. `contains` with a numeric value) are
modelled as `false`; no call site and no claim exercises them. -/
def evaluateCondition (env : JsEnv) (cond : Condition)
    (enrichmentResult : Option (List String)) : Bool :=
  if cond.operator = "exists" then
    match enrichmentResult with
    | some (first :: _) => decide (first.length > 0)
    | _ => false
  else
    match enrichmentResult with
    | some (raw :: _) =>
      if cond.operator = "gte" ∨ cond.operator = "gt" ∨ cond.operator = "lte" ∨
          cond.operator = "lt" ∨ cond.operator = "eq" then
        match env.parseNumber raw with
        | none => false
        | some num =>
          if cond.operator = "eq" then
            -- strict equality: `num === target` is false unless the
            -- configured value is itself a number
            match cond.value with
            | .num q => decide (num = q)
            | _ => false
          else
            match condTargetNum env cond.value with
            | none => false
            | some target => relCompare cond.operator num target
      else if cond.operator = "contains" then
        match cond.value with
        | .str s => containsSub (jsToLower raw).toList (jsToLower s).toList
        | _ => false
      else if cond.operator = "matches" then
        match cond.value with
        | .str s => env.regexTest s raw
        | _ => false
      else if cond.operator = "oneOf" then
        match cond.value with
        | .arr opts => opts.any (fun opt => jsToLower opt == jsToLower raw)
        | _ => false
      else if cond.operator = "withinDays" then
        match env.parseDate raw with
        | none => false
        | some parsed =>
          match condTargetNum env cond.value with
          | none => false
          | some days => decide (|env.now - parsed| ≤ days * 86400000)
      else false
    | _ => false

/-- A shape bound to a lens. -/
structure ShapeConfig where
  lensId : String
  conditions : List Condition
  logic : String
deriving DecidableEq, Repr

/-- `evaluateShape` (part_001 lines 269–279). -/
def evaluateShape (env : JsEnv) (shape : ShapeConfig)
    (enrichments : List ResolvedEnrichment) : Bool :=
  let results := shape.conditions.map fun cond =>
    match enrichments.find? (fun e => e.description == cond.enrichment) with
    | some m => evaluateCondition env cond m.result
    | none => evaluateCondition env cond none
  if shape.logic = "all" then results.all id else results.any id

/-! ## 4. The join engine (part_001 lines 281–455) -/

/-- Consecutive character bigrams of a string. -/
def bigrams : List Char → List (Char × Char)
  | a :: b :: rest => (a, b) :: bigrams (b :: rest)
  | _ => []

/-- Size of the multiset intersection of two bigram lists. -/
def multisetInterCount : List (Char × Char) → List (Char × Char) → ℕ
  | [], _ => 0
  | x :: xs, ys =>
    if x ∈ ys then 1 + multisetInterCount xs (ys.erase x)
    else multisetInterCount xs ys

/-- Modelled from the spec: `diceCoefficient` lives in convergent.ts,
which is not under src/ (only its import and call sites are).  The spec
(§4.4, §9) fixes it as the Sørensen–Dice bigram coefficient
`2·|bigrams(a) ∩ bigrams(b)| / (|bigrams(a)| + |bigrams(b)|)`, an
`O(n+m)` token-order-tolerant similarity.  When both strings are shorter
than two characters the JS quotient is `NaN` (compares false against any
threshold); in `ℚ` the quotient is `0`, which also compares false against
the non-negative thresholds in use. -/
def diceCoefficient (a b : String) : ℚ :=
  let ba := bigrams a.toList
  let bb := bigrams b.toList
  2 * (multisetInterCount ba bb : ℚ) / ((ba.length : ℚ) + (bb.length : ℚ))

/-- One shaped item as assembled by semantic.cron's collect step
(part_001 lines 80–88, 908–916). -/
structure ShapedItem where
  id : String
  name : String
  url : String
  entityType : String := ""
  enrichments : List (String × Option String) := []
  createdAt : String
  projected : Item := {}
deriving DecidableEq, Repr

/-- The per-lens result of the collect step (part_001 lines 73–78). -/
structure LensResult where
  lensId : String
  websetId : String := ""
  totalItems : ℕ := 0
  shapedItems : List ShapedItem
deriving DecidableEq, Repr

/-- `join.entityMatch` configuration. -/
structure EntityMatchCfg where
  method : Option String := none
  nameThreshold : Option ℚ := none
deriving DecidableEq, Repr

/-- `join.temporal` configuration. -/
structure TemporalCfg where
  window : Option String := none
  days : Option ℚ := none
deriving DecidableEq, Repr

/-- The `join.by` union type
`'entity' | 'temporal' | 'entity+temporal' | 'cooccurrence'`. -/
inductive JoinBy
  | entity
  | temporal
  | entityTemporal
  | cooccurrence
deriving DecidableEq, Repr

/-- The string value carried by `join.by` (used as `JoinResult.type`). -/
def JoinBy.toName : JoinBy → String
  | .entity => "entity"
  | .temporal => "temporal"
  | .entityTemporal => "entity+temporal"
  | .cooccurrence => "cooccurrence"

/-- The join rule (part_001 lines 55–60); `by` is a Lean keyword, hence
the field name `joinBy`. -/
structure JoinConfig where
  joinBy : JoinBy
  entityMatch : Option EntityMatchCfg := none
  temporal : Option TemporalCfg := none
  minLensOverlap : Option ℚ := none
deriving DecidableEq, Repr

/-- An entry of the entity map (part_001 lines 300–309). -/
structure JoinEntry where
  entity : String
  url : String
  lenses : List String
  shapes : List (String × List (String × Option String))
  timestamps : List (String × String)
deriving DecidableEq, Repr

/-- A joined entity (part_001 lines 90–96). -/
structure JoinedEntity where
  entity : String
  url : String
  presentInLenses : List String
  lensCount : ℕ
  shapes : List (String × List (String × Option String))
deriving DecidableEq, Repr

/-- The join result (part_001 lines 98–102). -/
structure JoinResult where
  type : String
  entities : List JoinedEntity
  lensesWithEvidence : List String
deriving DecidableEq, Repr

/-- JS `Set.prototype.add` on an insertion-ordered list. -/
def setAdd (l : List String) (x : String) : List String :=
  if x ∈ l then l else l ++ [x]

/-- `a || b` on strings (empty string is falsy). -/
def jsOrS (a b : String) : String := if a = "" then b else a

/-- JS truthiness of an optional number (`undefined`, `null` and `0` are
falsy). -/
def qTruthy : Option ℚ → Bool
  | some d => decide (d ≠ 0)
  | none => false

/-- The per-entry match test of the entity join (part_001 lines 315–332):
exact URL match first, then fuzzy name match with
`diceCoefficient(…) > threshold` — both guarded by JS truthiness of the
participating strings. -/
def matchesEntry (threshold : ℚ) (si : ShapedItem) (e : JoinEntry) : Bool :=
  (si.url != "" && e.url != "" && si.url == e.url) ||
  (si.name != "" && e.entity != "" &&
    decide (diceCoefficient si.name e.entity > threshold))

/-- Folding a matched item into an existing entry (part_001 lines
318–320 / 326–328). -/
def foldIntoEntry (lensId : String) (si : ShapedItem) (e : JoinEntry) : JoinEntry :=
  { e with
    lenses := setAdd e.lenses lensId
    shapes := mapSet e.shapes lensId si.enrichments
    timestamps := e.timestamps ++ [(lensId, si.createdAt)] }

/-- Update the first entry, in map order, that matches the item. -/
def updateFirst (threshold : ℚ) (lensId : String) (si : ShapedItem) :
    List (String × JoinEntry) → List (String × JoinEntry)
  | [] => []
  | (k, e) :: rest =>
    if matchesEntry threshold si e then (k, foldIntoEntry lensId si e) :: rest
    else (k, e) :: updateFirst threshold lensId si rest

/-- A fresh entry for an unmatched item (part_001 lines 334–343). -/
def newEntry (lensId : String) (si : ShapedItem) : JoinEntry :=
  { entity := si.name
    url := si.url
    lenses := [lensId]
    shapes := [(lensId, si.enrichments)]
    timestamps := [(lensId, si.createdAt)] }

/-- Processing of one shaped item by the entity join (the body of the
inner loop, part_001 lines 312–344): fold into the first matching entry,
else `entityMap.set(url || name || id, …)`. -/
def insertShapedItem (threshold : ℚ) (lensId : String)
    (m : List (String × JoinEntry)) (si : ShapedItem) :
    List (String × JoinEntry) :=
  if m.any (fun p => matchesEntry threshold si p.2) then
    updateFirst threshold lensId si m
  else
    mapSet m (jsOrS si.url (jsOrS si.name si.id)) (newEntry lensId si)

/-- The entity map after walking all lens results in order (part_001
lines 300–345). -/
def buildEntityMap (threshold : ℚ) (lrs : List LensResult) :
    List (String × JoinEntry) :=
  lrs.foldl (fun m lr => lr.shapedItems.foldl (insertShapedItem threshold lr.lensId) m) []

/-- `Math.abs(a − b) <= w` on two parsed dates; `none` is `NaN` and
compares false. -/
def optAbsLe (a b : Option ℚ) (w : ℚ) : Bool :=
  match a, b with
  | some x, some y => decide (|x - y| ≤ w)
  | _, _ => false

/-- `Math.abs(new Date(a).getTime() − new Date(b).getTime()) <= w`. -/
def timeDiffLe (dp : String → Option ℚ) (a b : String) (w : ℚ) : Bool :=
  optAbsLe (dp a) (dp b) w

/-- The pairwise window check of the entity+temporal filter (part_001
lines 366–377): some two recorded timestamps from different lenses lie
within the window. -/
def hasPairWithin (dp : String → Option ℚ) (w : ℚ) :
    List (String × String) → Bool
  | [] => false
  | t :: rest =>
    rest.any (fun u => t.1 != u.1 && timeDiffLe dp t.2 u.2 w) ||
      hasPairWithin dp w rest

/-- Mapping an entry to a joined entity (part_001 lines 347–353). -/
def entryToJoined (e : JoinEntry) : JoinedEntity :=
  { entity := e.entity
    url := e.url
    presentInLenses := e.lenses
    lensCount := e.lenses.length
    shapes := e.shapes }

/-- `joinByCooccurrence` (part_001 lines 389–419).  `dp` models
`new Date(s).getTime()` with `none` for `NaN`. -/
def joinByCooccurrence (dp : String → Option ℚ) (lrs : List LensResult)
    (temporalDays : Option ℚ) : JoinResult :=
  if qTruthy temporalDays then
    let windowMs := temporalDays.getD 0 * 86400000
    let allTimestamps : List (String × Option ℚ) :=
      lrs.flatMap (fun lr => lr.shapedItems.map (fun si => (lr.lensId, dp si.createdAt)))
    if allTimestamps.isEmpty then
      { type := "cooccurrence", entities := [], lensesWithEvidence := [] }
    else
      -- `Math.min(...)` over the times: `NaN` poisons the minimum
      let earliest : Option ℚ :=
        if allTimestamps.any (fun t => t.2.isNone) then none
        else (allTimestamps.filterMap (·.2)).min?
      let qualifying := allTimestamps.filter (fun t =>
        match t.2, earliest with
        | some time, some e => decide (time - e ≤ windowMs)
        | _, _ => false)
      { type := "cooccurrence", entities := []
        lensesWithEvidence := dedupFirst (qualifying.map (·.1)) }
  else
    { type := "cooccurrence", entities := []
      lensesWithEvidence :=
        (lrs.filter (fun lr => !lr.shapedItems.isEmpty)).map (·.lensId) }

/-- The nested pair loop of `joinByTemporal` (part_001 lines 438–452);
lens pairs are visited in key order and added to the qualifying set in
`(i, j)` order. -/
def temporalPairLoop (w : ℚ) (acc : List String) :
    List (String × List (Option ℚ)) → List String
  | [] => acc
  | (idA, timesA) :: rest =>
    let acc2 := rest.foldl (fun a p =>
      if timesA.any (fun ta => p.2.any (fun tb => optAbsLe ta tb w)) then
        setAdd (setAdd a idA) p.1
      else a) acc
    temporalPairLoop w acc2 rest

/-- `joinByTemporal` (part_001 lines 421–455). -/
def joinByTemporal (dp : String → Option ℚ) (lrs : List LensResult)
    (days : ℚ) : JoinResult :=
  let windowMs := days * 86400000
  let lensTimes : List (String × List (Option ℚ)) :=
    lrs.foldl (fun m lr =>
      let times := lr.shapedItems.map (fun si => dp si.createdAt)
      if times.isEmpty then m else mapSet m lr.lensId times) []
  { type := "temporal", entities := []
    lensesWithEvidence := temporalPairLoop windowMs [] lensTimes }

/-- `joinLensResults` (part_001 lines 283–387). -/
def joinLensResults (dp : String → Option ℚ) (cfg : JoinConfig)
    (lrs : List LensResult) : JoinResult :=
  let threshold := (cfg.entityMatch.bind (·.nameThreshold)).getD 0.85
  let minOverlap := cfg.minLensOverlap.getD 2
  let temporalDays := cfg.temporal.bind (·.days)
  match cfg.joinBy with
  | .cooccurrence => joinByCooccurrence dp lrs temporalDays
  | .temporal => joinByTemporal dp lrs (temporalDays.getD 7)
  | jb =>
    let m := buildEntityMap threshold lrs
    let values := m.map (·.2)
    let entities0 := values.map entryToJoined
    let entities1 :=
      if jb = .entityTemporal && qTruthy temporalDays then
        let windowMs := temporalDays.getD 0 * 86400000
        entities0.filter (fun ent =>
          match values.find? (fun e => e.entity == ent.entity && e.url == ent.url) with
          | none => false
          | some entry => hasPairWithin dp windowMs entry.timestamps)
      else entities0
    let entities2 := entities1.filter (fun e => decide ((e.lensCount : ℚ) ≥ minOverlap))
    { type := jb.toName
      entities := entities2
      lensesWithEvidence := dedupFirst (entities2.flatMap (·.presentInLenses)) }

/-! ## 5. Signal evaluation (part_001 lines 457–588) -/

/-- A `WorkflowError` (helpers.ts lines 43–47), as thrown by workflows. -/
structure WErr where
  message : String
  step : String
deriving DecidableEq, Repr

/-- The `signal.requires.type` union
`'all' | 'any' | 'threshold' | 'combination'`. -/
inductive RequiresType
  | all
  | any
  | threshold
  | combination
deriving DecidableEq, Repr

/-- The string value carried by `requires.type` (used as
`SignalResult.rule`). -/
def RequiresType.toName : RequiresType → String
  | .all => "all"
  | .any => "any"
  | .threshold => "threshold"
  | .combination => "combination"

/-- `signal.requires` (part_001 lines 62–69). -/
structure RequiresCfg where
  type : RequiresType
  min : Option ℚ := none
  sufficient : Option (List (List String)) := none
deriving DecidableEq, Repr

/-- The signal rule. -/
structure SignalConfig where
  proxy : Option String := none
  requires : RequiresCfg
deriving DecidableEq, Repr

/-- A signal result (part_001 lines 104–110). -/
structure SignalResult where
  fired : Bool
  satisfiedBy : List String
  rule : String
  matchedCombination : Option (List String) := none
  entities : List String
deriving DecidableEq, Repr

/-- First combination (in order) with a non-empty matching entity set
(part_001 lines 514–526). -/
def firstComboMatch (entities : List JoinedEntity) :
    List (List String) → List JoinedEntity × Option (List String)
  | [] => ([], none)
  | combo :: rest =>
    let matching := entities.filter (fun e =>
      combo.all (fun lensId => e.presentInLenses.contains lensId))
    if matching.length > 0 then (matching, some combo)
    else firstComboMatch entities rest

/-- `evaluateSignalWithEntities` (part_001 lines 493–545). -/
def evaluateSignalWithEntities (jr : JoinResult) (cfg : SignalConfig)
    (allLensIds : List String) : SignalResult :=
  match cfg.requires.type with
  | .combination =>
    let (matching, matchedCombo) :=
      firstComboMatch jr.entities (cfg.requires.sufficient.getD [])
    { fired := matching.length > 0
      satisfiedBy := dedupFirst (matching.flatMap (·.presentInLenses))
      rule := "combination"
      matchedCombination := matchedCombo
      entities := matching.map (·.entity) }
  | ty =>
    let matching : List JoinedEntity :=
      match ty with
      | .all => jr.entities.filter (fun e =>
          allLensIds.all (fun id => e.presentInLenses.contains id))
      | .threshold => jr.entities.filter (fun e =>
          decide ((e.lensCount : ℚ) ≥ (cfg.requires.min.getD 2)))
      | _ => jr.entities
    { fired := matching.length > 0
      satisfiedBy := dedupFirst (matching.flatMap (·.presentInLenses))
      rule := ty.toName
      entities := matching.map (·.entity) }

/-- `evaluateSignalWithEvidence` (part_001 lines 547–588). -/
def evaluateSignalWithEvidence (jr : JoinResult) (cfg : SignalConfig)
    (allLensIds : List String) : SignalResult :=
  let evidence := jr.lensesWithEvidence
  let firedCombo : Bool × Option (List String) :=
    match cfg.requires.type with
    | .all => (allLensIds.all (fun id => evidence.contains id), none)
    | .any => (evidence.length > 0, none)
    | .threshold => (decide ((evidence.length : ℚ) ≥ (cfg.requires.min.getD 2)), none)
    | .combination =>
      match (cfg.requires.sufficient.getD []).find?
          (fun combo => combo.all (fun lensId => evidence.contains lensId)) with
      | some combo => (true, some combo)
      | none => (false, none)
  { fired := firedCombo.1
    satisfiedBy := evidence
    rule := cfg.requires.type.toName
    matchedCombination := firedCombo.2
    entities := [] }

/-- The combination-lens-id validation of `evaluateSignal` (part_001
lines 464–483): `none` when the configuration passes. -/
def signalValidate (cfg : SignalConfig) (allLensIds : List String) : Option WErr :=
  if cfg.requires.type = .combination then
    match cfg.requires.sufficient with
    | none =>
      some ⟨"signal.requires.sufficient must be provided for combination type", "validate"⟩
    | some [] =>
      some ⟨"signal.requires.sufficient must be provided for combination type", "validate"⟩
    | some combos =>
      match (combos.flatMap id).find? (fun lensId => !(allLensIds.contains lensId)) with
      | some lensId =>
        some ⟨"Unknown lens ID \"" ++ lensId ++
          "\" in signal.requires.sufficient. Available: " ++
          String.intercalate ", " allLensIds, "validate"⟩
      | none => none
  else none

/-- `evaluateSignal` (part_001 lines 459–491): validate combination lens
ids, then pick the evaluation base solely by whether the join produced
any entities. -/
def evaluateSignal (jr : JoinResult) (cfg : SignalConfig)
    (allLensIds : List String) : Except WErr SignalResult :=
  match signalValidate cfg allLensIds with
  | some e => .error e
  | none =>
    if jr.entities.length > 0 then
      .ok (evaluateSignalWithEntities jr cfg allLensIds)
    else
      .ok (evaluateSignalWithEvidence jr cfg allLensIds)

/-! ## 6. Snapshots and deltas (part_001 lines 112–139, 590–676) -/

/-- One shape record of a per-lens snapshot. -/
structure ShapeSnap where
  name : String
  url : String
  enrichments : List (String × Option String)
deriving DecidableEq, Repr

/-- Per-lens snapshot summary. -/
structure LensSnap where
  websetId : String
  totalItems : ℕ
  shapedCount : ℕ
  shapes : List ShapeSnap
deriving DecidableEq, Repr

/-- A snapshot (part_001 lines 112–125). -/
structure SnapshotData where
  evaluatedAt : String
  lenses : List (String × LensSnap)
  join : JoinResult
  signal : SignalResult
deriving DecidableEq, Repr

/-- The signal transition of a delta. -/
structure SignalTransition where
  was : Bool
  now : Bool
  changed : Bool
  newEntities : List String
  lostEntities : List String
deriving DecidableEq, Repr

/-- A delta between two snapshots (part_001 lines 127–139). -/
structure Delta where
  newShapedItems : List (String × ℕ)
  newJoins : List String
  lostJoins : List String
  signalTransition : SignalTransition
  timeSinceLastEval : String
deriving DecidableEq, Repr

/-- `formatDuration` (part_001 lines 635–646); `Math.floor` is `Int.floor`
on the rational millisecond count, the JS `%` on the resulting integers is
truncated remainder. -/
def formatDuration (ms : ℚ) : String :=
  let totalMinutes : ℤ := Int.floor (ms / 60000)
  let days : ℤ := Int.floor ((totalMinutes : ℚ) / 1440)
  let hours : ℤ := Int.floor (((Int.tmod totalMinutes 1440) : ℚ) / 60)
  let minutes : ℤ := Int.tmod totalMinutes 60
  let parts : List String :=
    (if days > 0 then [toString days ++ "d"] else []) ++
    (if hours > 0 then [toString hours ++ "h"] else [])
  let parts :=
    if minutes > 0 ∨ parts.isEmpty then parts ++ [toString minutes ++ "m"] else parts
  String.intercalate " " parts

/-- `computeDelta` (part_001 lines 592–633).  `dp` models
`new Date(s).getTime()`; if either timestamp fails to parse the formatted
duration is the JS `"NaNm"`. -/
def computeDelta (dp : String → Option ℚ)
    (current previous : SnapshotData) : Delta :=
  let newShapedItems := current.lenses.map (fun p =>
    let prevCount := ((lookupAssoc previous.lenses p.1).map (·.shapedCount)).getD 0
    (p.1, ((p.2.shapedCount : ℤ) - (prevCount : ℤ)).toNat))
  let currentKeys := dedupFirst (current.join.entities.map (fun e => jsOrS e.url e.entity))
  let previousKeys := dedupFirst (previous.join.entities.map (fun e => jsOrS e.url e.entity))
  let newJoins := currentKeys.filter (fun k => !(previousKeys.contains k))
  let lostJoins := previousKeys.filter (fun k => !(currentKeys.contains k))
  let currentNames := dedupFirst current.signal.entities
  let previousNames := dedupFirst previous.signal.entities
  let timeSince :=
    match dp previous.evaluatedAt, dp current.evaluatedAt with
    | some prevT, some currT => formatDuration (currT - prevT)
    | _, _ => "NaNm"
  { newShapedItems := newShapedItems
    newJoins := newJoins
    lostJoins := lostJoins
    signalTransition :=
      { was := previous.signal.fired
        now := current.signal.fired
        changed := previous.signal.fired ≠ current.signal.fired
        newEntities := currentNames.filter (fun n => !(previousNames.contains n))
        lostEntities := previousNames.filter (fun n => !(currentNames.contains n)) }
    timeSinceLastEval := timeSince }

/-- `buildSnapshot` (part_001 lines 650–676); `evaluatedAt` is the
`new Date().toISOString()` oracle value. -/
def buildSnapshot (lensResults : List LensResult) (joinResult : JoinResult)
    (signalResult : SignalResult) (websetIds : List (String × String))
    (evaluatedAt : String) : SnapshotData :=
  { evaluatedAt := evaluatedAt
    lenses := lensResults.foldl (fun acc lr =>
      mapSet acc lr.lensId
        { websetId := (lookupAssoc websetIds lr.lensId).getD ""
          totalItems := lr.totalItems
          shapedCount := lr.shapedItems.length
          shapes := lr.shapedItems.map (fun si =>
            { name := si.name, url := si.url, enrichments := si.enrichments }) }) []
    join := joinResult
    signal := signalResult }

/-! ## 7. `qd.winnow` classification

`classifyItem` lives in qdWinnow.ts, which is not under src/ — only its
unit tests (part_002) and the workflow-step catalogue (part_000) are. -/

/-- The classification of one item (qdWinnow.ts, `ClassifiedItem`). -/
structure ClassifiedItem where
  item : Item
  niche : String
  vector : List Bool
deriving DecidableEq, Repr

/-- The comma-separated niche encoding of a criteria vector
(`"1,0,1,…"`). -/
def nicheChars : List Bool → List Char
  | [] => []
  | [b] => [if b then '1' else '0']
  | b :: c :: rest => (if b then '1' else '0') :: ',' :: nicheChars (c :: rest)

/-- Modelled from the spec: `classifyItem` (qdWinnow.ts) is missing from
src/.  Spec §4.8: position *i* of the boolean vector is true iff the
item's evaluation for criterion *i* has `satisfied == "yes"`; a missing
evaluation contributes `false`; the niche key is the vector encoded as a
comma-separated `"1,0,1,…"` string.  The unit tests in src (part_002
lines 56–98) pin exactly this behaviour, including `"unclear" ↦ false`
and the zero niche `"0,0,0"` for an item without evaluations. -/
def classifyItem (item : Item) (criteria : List String) : ClassifiedItem :=
  let evals := item.evaluations.getD []
  let vector := criteria.map (fun c =>
    match evals.find? (fun e => e.criterion == some c) with
    | some e => e.satisfied == some "yes"
    | none => false)
  { item := item
    niche := String.mk (nicheChars vector)
    vector := vector }

/-! ## 8. Workflow helpers (helpers.ts): item collection and polling -/

/-- `collectItems` (helpers.ts lines 151–162): push items from the
upstream stream until `items.length >= cap`.  The declared default cap is
`1000`. -/
def collectGo (cap : ℚ) (acc : List Item) : List Item → List Item
  | [] => acc
  | x :: xs =>
    let acc2 := acc ++ [x]
    if (acc2.length : ℚ) ≥ cap then acc2 else collectGo cap acc2 xs

/-- `collectItems(exa, websetId, cap = 1000)`, as a function of the
upstream's streamed item listing. -/
def collectItems (stream : List Item) (cap : ℚ := 1000) : List Item :=
  collectGo cap [] stream

/-! ## 9. Effect traces: polling and the workflow drivers

The event alphabet records the upstream side effects a workflow performs;
`progress` records `store.updateProgress` step labels.  Workflows are
deterministic functions of an oracle: `cancelAt` is the index of the
`isCancelled` call from which the task store reports `cancelled`
(the store's status flips once and stays — this makes the observed
cancellation sequence monotone by construction). -/

/-- Observable workflow effects. -/
inductive Ev
  | createWebset (id : String)
  | cancelWebset (id : String)
  | deleteWebset (id : String)
  | createMonitor (websetId : String)
  | progress (step : String)
deriving DecidableEq, Repr

/-- `isCancelled(taskId, store)` at the `n`-th check. -/
def isCancelledAt (cancelAt : Option ℕ) (n : ℕ) : Bool :=
  match cancelAt with
  | some m => decide (n ≥ m)
  | none => false

/-- An upstream enrichment definition (`{id, description}`). -/
structure EnrichDef where
  id : String
  description : String
deriving DecidableEq, Repr

/-- A search's progress record. -/
structure SearchProg where
  found : ℚ
  analyzed : ℚ
  completion : ℚ := 0
  timeLeft : Option ℚ := none
deriving DecidableEq, Repr

/-- One search of a webset (only `progress` is read by the helpers). -/
structure SearchRec where
  progress : Option SearchProg := none
deriving DecidableEq, Repr

/-- A webset as fetched from the upstream (fields read by the embedded
code). -/
structure Webset where
  id : String := ""
  status : String := ""
  searches : Option (List SearchRec) := none
  enrichments : Option (List EnrichDef) := none
deriving DecidableEq, Repr

/-- `webset.enrichments` → `Map<enrichmentId, description>` (part_001
lines 781–790 and 813–822). -/
def defsToMap (defs : Option (List EnrichDef)) : List (String × String) :=
  (defs.getD []).foldl (fun m d => mapSet m d.id d.description) []

/-- Oracle for one `pollUntilIdle` call: the webset returned by the
`i`-th `exa.websets.get`, `Date.now()` at the `i`-th deadline check, and
`Date.now()` at entry (the deadline is `start + timeoutMs`). -/
structure PollOracle where
  fetch : ℕ → Webset
  now : ℕ → ℚ
  start : ℚ

/-- Return value of `pollUntilIdle`. -/
structure PollRes where
  webset : Webset
  timedOut : Bool
deriving DecidableEq, Repr

/-- Does the fetched webset trigger the `searching` progress mirror
(`lastSearch?.progress`, helpers.ts lines 126–136)? -/
def hasLastSearchProgress (w : Webset) : Bool :=
  match w.searches with
  | some l => (l.getLast?.bind (·.progress)).isSome
  | none => false

/-- The loop of `pollUntilIdle` (helpers.ts lines 115–144), from fetch
index `i` with next cancellation index `n`; `none` = out of fuel (the JS
loop not having terminated within the modelled horizon).  Returns the
emitted events, the next cancellation index, and the outcome — the
`paused` branch throws. -/
def pollGo (o : PollOracle) (cancelAt : Option ℕ) (wsId : String)
    (deadline : ℚ) : ℕ → ℕ → ℕ → Option (List Ev × ℕ × Except String PollRes)
  | 0, _, _ => none
  | fuel + 1, i, n =>
    let w := o.fetch i
    if w.status = "idle" then some ([], n, .ok ⟨w, false⟩)
    else if w.status = "paused" then
      some ([], n, .error "Webset was paused unexpectedly")
    else if o.now i ≥ deadline then some ([], n, .ok ⟨w, true⟩)
    else
      let evs1 : List Ev :=
        if hasLastSearchProgress w then [.progress "searching"] else []
      if isCancelledAt cancelAt n then
        some (evs1 ++ [.cancelWebset wsId], n + 1, .ok ⟨w, false⟩)
      else
        match pollGo o cancelAt wsId deadline fuel (i + 1) (n + 1) with
        | none => none
        | some (evs, n', r) => some (evs1 ++ evs, n', r)

/-- `pollUntilIdle(opts)` (helpers.ts lines 102–147). -/
def pollUntilIdle (o : PollOracle) (cancelAt : Option ℕ) (wsId : String)
    (timeoutMs : ℚ) (fuel n : ℕ) : Option (List Ev × ℕ × Except String PollRes) :=
  pollGo o cancelAt wsId (o.start + timeoutMs) fuel 0 n

/-- The `entity` argument: an object whose `type` key may be present. -/
structure EntityArg where
  type : Option String := none
deriving DecidableEq, Repr

/-- Arguments of `lifecycle.harvest` (lifecycle.ts lines 23–27);
`criteria`/`enrichments` are opaque configuration passed through to the
upstream. -/
structure HarvestArgs where
  query : Option String := none
  entity : Option EntityArg := none
  criteria : Option (List String) := none
  count : Option ℚ := none
  enrichments : Option (List String) := none
  timeout : Option ℚ := none
  cleanup : Option Bool := none
deriving DecidableEq, Repr

/-- Result of `lifecycle.harvest` (lifecycle.ts lines 102–111); the
wall-clock `duration`, `steps` timings and `_summary` are observability
data elided from the embedding. -/
structure HarvestResult where
  websetId : String
  items : List Item
  itemCount : ℕ
  searchProgress : Option (ℚ × ℚ)
  enrichmentCount : ℕ
  timedOut : Bool
deriving DecidableEq, Repr

/-- Oracle for one `lifecycle.harvest` execution. -/
structure HarvestOracle where
  cancelAt : Option ℕ
  websetId : String
  poll : PollOracle
  stream : List Item

/-- `{found, analyzed}` of the last search of the final webset
(lifecycle.ts lines 91–95). -/
def lastSearchProgress (w : Webset) : Option (ℚ × ℚ) :=
  (w.searches.bind (fun l => l.getLast?.bind (·.progress))).map
    (fun p => (p.found, p.analyzed))

/-- `lifecycleHarvestWorkflow` (lifecycle.ts lines 14–114) as a trace
function.  Cancellation checkpoints in source order: after validation
(line 36), after webset creation (line 52, cancels the created webset),
inside polling (helpers.ts line 138, cancels the webset), after polling
(line 72, returns null without cancelling).  `none` = out of fuel. -/
def lifecycleHarvest (o : HarvestOracle) (args : HarvestArgs) (fuel : ℕ) :
    Option (List Ev × Except WErr (Option HarvestResult)) :=
  let count := args.count.getD 25
  let timeoutMs := args.timeout.getD 300000
  let cleanup := args.cleanup.getD false
  -- validate
  if args.query.isNone then
    some ([], .error ⟨"query is required. Natural language search query, e.g. \"AI startups in San Francisco\"", "validate"⟩)
  else
    match args.entity with
    | none =>
      some ([], .error ⟨"entity must be an object: \x7btype: \"company\"|\"person\"|\"article\"|...\x7d", "validate"⟩)
    | some entity =>
      if entity.type.isNone then
        some ([], .error ⟨"entity must be an object: \x7btype: \"company\"|\"person\"|\"article\"|...\x7d", "validate"⟩)
      else
      -- checkpoint 1 (line 36)
      if isCancelledAt o.cancelAt 0 then some ([], .ok none)
      else
        let evs0 : List Ev := [.progress "creating", .createWebset o.websetId]
        -- checkpoint 2 (line 52)
        if isCancelledAt o.cancelAt 1 then
          some (evs0 ++ [.cancelWebset o.websetId], .ok none)
        else
          let evs1 := evs0 ++ [.progress "polling"]
          match pollUntilIdle o.poll o.cancelAt o.websetId timeoutMs fuel 2 with
          | none => none
          | some (pevs, _, .error e) => some (evs1 ++ pevs, .error ⟨e, ""⟩)
          | some (pevs, n', .ok pr) =>
            -- checkpoint 3 (line 72): returns null WITHOUT cancelling
            if isCancelledAt o.cancelAt n' then some (evs1 ++ pevs, .ok none)
            else
              let evs2 := evs1 ++ pevs ++ [.progress "collecting"]
              let items := collectItems o.stream (count * 2)
              let evs3 := evs2 ++ (if cleanup then [Ev.deleteWebset o.websetId] else [])
              let evs4 := evs3 ++ [.progress "complete"]
              some (evs4, .ok (some
                { websetId := o.websetId
                  items := items
                  itemCount := items.length
                  searchProgress := lastSearchProgress pr.webset
                  enrichmentCount := (args.enrichments.getD []).length
                  timedOut := pr.timedOut }))

/-! ## 10. The `semantic.cron` workflow driver (part_001 lines 680–997) -/

/-- A lens source specification (part_001 lines 29–40);
`criteria`/`enrichments` are opaque upstream configuration. -/
structure LensSource where
  query : Option String := none
  websetId : Option String := none
  entity : Option EntityArg := none
  criteria : Option (List String) := none
  enrichments : Option (List String) := none
  count : Option ℚ := none
deriving DecidableEq, Repr

/-- A lens (part_001 lines 27–41). -/
structure LensConfig where
  id : String
  source : LensSource
deriving DecidableEq, Repr

/-- The optional monitor cadence. -/
structure MonitorCfg where
  cron : String
  timezone : Option String := none
deriving DecidableEq, Repr

/-- A semantic-cron configuration (part_001 lines 17–25); a missing
`lenses`/`shapes` array and an empty one behave identically in the
validation, so both are the empty list. -/
structure SemanticCronConfig where
  name : Option String := none
  proxy : Option String := none
  lenses : List LensConfig := []
  shapes : List ShapeConfig := []
  join : Option JoinConfig := none
  signal : Option SignalConfig := none
  monitor : Option MonitorCfg := none
deriving DecidableEq, Repr

/-- `semantic.cron` task arguments (part_001 lines 689–693); the JS
field `variables` is `vars` here (`variables` is reserved in Lean). -/
structure CronArgs where
  config : Option SemanticCronConfig := none
  vars : Option (List (String × String)) := none
  existingWebsets : Option (List (String × String)) := none
  previousSnapshot : Option SnapshotData := none
  timeout : Option ℚ := none
deriving DecidableEq, Repr

/-- Result of `semantic.cron` (part_001 lines 975–984); wall-clock
`duration`, `steps` and `_summary` elided as observability data. -/
structure CronResult where
  websetIds : List (String × String)
  snapshot : SnapshotData
  delta : Option Delta := none
deriving DecidableEq, Repr

/-- Oracle for one `semantic.cron` execution.  `expandC` abstracts the
`JSON.stringify` / `expandTemplates` / `JSON.parse` round trip at the
configuration level (the textual substitution itself is `expandTemplates`
above); `createdWebset i` is the webset created by the `i`-th
`exa.websets.create`; `getWebset` serves the one-shot
`exa.websets.get` calls for bound and re-evaluated lenses; `pollFor i`
drives the poll of the `i`-th lens; `stream` is the upstream item
listing per webset id; `nowISO` is `new Date().toISOString()`. -/
structure CronOracle where
  cancelAt : Option ℕ
  createdWebset : ℕ → Webset
  getWebset : String → Webset
  pollFor : ℕ → PollOracle
  stream : String → List Item
  expandC : SemanticCronConfig → List (String × String) →
    Except (List (List Char)) SemanticCronConfig
  env : JsEnv
  nowISO : String

/-- Shape→lens reference validation (part_001 lines 715–723). -/
def checkShapeLensIds (config : SemanticCronConfig) :
    Except WErr SemanticCronConfig :=
  let lensIds := config.lenses.map (·.id)
  match config.shapes.find? (fun s => !(lensIds.contains s.lensId)) with
  | some shape =>
    .error ⟨"Shape references unknown lens \"" ++ shape.lensId ++
      "\". Available: " ++ String.intercalate ", " lensIds, "validate"⟩
  | none => .ok config

/-- The validation prologue (part_001 lines 699–723): presence checks on
the raw configuration, template expansion when variables are supplied,
then shape→lens reference checks on the expanded configuration. -/
def cronValidate (o : CronOracle) (args : CronArgs) :
    Except WErr SemanticCronConfig :=
  match args.config with
  | none => .error ⟨"config.lenses is required and must be non-empty", "validate"⟩
  | some rawConfig =>
    if rawConfig.lenses.isEmpty then
      .error ⟨"config.lenses is required and must be non-empty", "validate"⟩
    else if rawConfig.shapes.isEmpty then
      .error ⟨"config.shapes is required and must be non-empty", "validate"⟩
    else if rawConfig.join.isNone then
      .error ⟨"config.join is required", "validate"⟩
    else if rawConfig.signal.isNone then
      .error ⟨"config.signal is required", "validate"⟩
    else
      match args.vars with
      | some vars =>
        match o.expandC rawConfig vars with
        | .error toks =>
          .error ⟨"Unresolved template variables: " ++
            String.intercalate ", " (toks.map String.mk), "validate"⟩
        | .ok config => checkShapeLensIds config
      | none => checkShapeLensIds rawConfig

/-- Threaded state of the create loop. -/
structure CreateSt where
  n : ℕ
  created : ℕ
  websetIds : List (String × String)
  enrichmentMaps : List (String × List (String × String))
  evs : List Ev

/-- The initial-run create loop (part_001 lines 736–793): per lens,
progress update, cancellation check (cancelling every webset created so
far and returning null), then create-or-bind and enrichment-map
extraction.  The boolean is `true` when the loop observed cancellation. -/
def cronCreateLoop (o : CronOracle) (total : ℕ) :
    List (ℕ × LensConfig) → CreateSt → CreateSt × Bool
  | [], st => (st, false)
  | (i, lens) :: rest, st =>
    let evs := st.evs ++ [Ev.progress ("creating lens " ++ toString (i + 1) ++ "/" ++
      toString total ++ ": " ++ lens.id)]
    if isCancelledAt o.cancelAt st.n then
      ({ st with
          n := st.n + 1
          evs := evs ++ st.websetIds.map (fun p => Ev.cancelWebset p.2) }, true)
    else
      match lens.source.websetId with
      | some wsId =>
        let webset := o.getWebset wsId
        cronCreateLoop o total rest
          { st with
            n := st.n + 1
            websetIds := mapSet st.websetIds lens.id wsId
            enrichmentMaps := mapSet st.enrichmentMaps lens.id (defsToMap webset.enrichments)
            evs := evs }
      | none =>
        let webset := o.createdWebset st.created
        cronCreateLoop o total rest
          { st with
            n := st.n + 1
            created := st.created + 1
            websetIds := mapSet st.websetIds lens.id webset.id
            enrichmentMaps := mapSet st.enrichmentMaps lens.id (defsToMap webset.enrichments)
            evs := evs ++ [Ev.createWebset webset.id] }

/-- The re-evaluation fetch loop (part_001 lines 795–824): the websets
already exist; fetch each for its enrichment definitions.  No cancellation
checks occur inside this loop. -/
def cronFetchLoop (o : CronOracle) (total : ℕ) (websetIds : List (String × String)) :
    List (ℕ × LensConfig) → List (String × List (String × String)) → List Ev →
    Except WErr (List (String × List (String × String)) × List Ev)
  | [], eMaps, evs => .ok (eMaps, evs)
  | (i, lens) :: rest, eMaps, evs =>
    match lookupAssoc websetIds lens.id with
    | none =>
      .error ⟨"existingWebsets missing ID for lens \"" ++ lens.id ++ "\"", "validate"⟩
    | some wsId =>
      let evs := evs ++ [Ev.progress ("fetching lens " ++ toString (i + 1) ++ "/" ++
        toString total ++ ": " ++ lens.id)]
      let webset := o.getWebset wsId
      cronFetchLoop o total websetIds rest
        (mapSet eMaps lens.id (defsToMap webset.enrichments)) evs

/-- Outcome of the poll loop. -/
inductive PollLoopOut
  | done (n : ℕ) (evs : List Ev)
  | nullReturn (evs : List Ev)
  | threw (e : WErr) (evs : List Ev)

/-- The initial-run poll loop (part_001 lines 836–867): skip lenses bound
to pre-existing websets; poll the rest to idleness; after each poll,
cancellation check cancelling all websets and returning null.  `none` =
out of fuel. -/
def cronPollLoop (o : CronOracle) (total : ℕ) (websetIds : List (String × String))
    (timeoutMs : ℚ) (fuel : ℕ) :
    List (ℕ × LensConfig) → ℕ → List Ev → Option PollLoopOut
  | [], n, evs => some (.done n evs)
  | (i, lens) :: rest, n, evs =>
    if lens.source.websetId.isSome then cronPollLoop o total websetIds timeoutMs fuel rest n evs
    else
      let evs := evs ++ [Ev.progress ("polling lens " ++ toString (i + 1) ++ "/" ++
        toString total ++ ": " ++ lens.id)]
      let wsId := (lookupAssoc websetIds lens.id).getD ""
      match pollUntilIdle (o.pollFor i) o.cancelAt wsId timeoutMs fuel n with
      | none => none
      | some (pevs, _, .error e) => some (.threw ⟨e, ""⟩ (evs ++ pevs))
      | some (pevs, n', .ok _) =>
        let evs := evs ++ pevs
        if isCancelledAt o.cancelAt n' then
          some (.nullReturn (evs ++ websetIds.map (fun p => Ev.cancelWebset p.2)))
        else
          cronPollLoop o total websetIds timeoutMs fuel rest (n' + 1) evs

/-- The collect-shape step for one lens (part_001 lines 875–926):
collect the stream (default cap), filter to items with a satisfied
evaluation, resolve enrichment descriptions, apply the lens's shapes,
and assemble the shaped items. -/
def cronCollectLens (o : CronOracle) (config : SemanticCronConfig)
    (websetIds : List (String × String))
    (enrichmentMaps : List (String × List (String × String)))
    (lens : LensConfig) : LensResult :=
  let wsId := (lookupAssoc websetIds lens.id).getD ""
  let rawItems := collectItems (o.stream wsId)
  let passingItems := rawItems.filter hasSatisfiedEvaluation
  let resolved := resolveEnrichmentDescriptions passingItems
    ((lookupAssoc enrichmentMaps lens.id).getD [])
  let shapesForLens := config.shapes.filter (fun s => s.lensId == lens.id)
  let shapedItems := resolved.filterMap fun p =>
    let passes := shapesForLens.isEmpty ||
      shapesForLens.any (fun sh => evaluateShape o.env sh p.2)
    if passes then
      let projected := projectItem p.1
      let enrichmentValues := p.2.foldl
        (fun m e => mapSet m e.description (e.result.bind (·.head?))) []
      some
        { id := p.1.id.getD ""
          name := projected.name.getD ""
          url := projected.url.getD ""
          entityType := projected.entityType.getD ""
          enrichments := enrichmentValues
          createdAt := p.1.createdAt.getD o.nowISO
          projected := projected }
    else none
  { lensId := lens.id
    websetId := wsId
    totalItems := rawItems.length
    shapedItems := shapedItems }

/-- The tail of the workflow after the post-collect cancellation
checkpoint (part_001 lines 932–993): join, signal (which may throw a
validation error), snapshot, monitor creation (initial run only,
non-fatal), delta on re-evaluation. -/
def cronTail (o : CronOracle) (config : SemanticCronConfig)
    (joinCfg : JoinConfig) (signalCfg : SignalConfig)
    (websetIds : List (String × String)) (lensResults : List LensResult)
    (isReeval : Bool) (previousSnapshot : Option SnapshotData) (evs : List Ev) :
    List Ev × Except WErr (Option CronResult) :=
  let lensIds := config.lenses.map (·.id)
  let evs := evs ++ [Ev.progress "joining lenses"]
  let joinResult := joinLensResults o.env.parseDate joinCfg lensResults
  let evs := evs ++ [Ev.progress "evaluating signal"]
  match evaluateSignal joinResult signalCfg lensIds with
  | .error e => (evs, .error e)
  | .ok signalResult =>
    let snapshot := buildSnapshot lensResults joinResult signalResult websetIds o.nowISO
    let evs := evs ++
      (if !isReeval && config.monitor.isSome then
        [Ev.progress "creating monitors"] ++
        config.lenses.map (fun lens =>
          Ev.createMonitor ((lookupAssoc websetIds lens.id).getD ""))
      else [])
    let evs := evs ++ [Ev.progress "complete"]
    let delta :=
      match isReeval, previousSnapshot with
      | true, some prev => some (computeDelta o.env.parseDate snapshot prev)
      | _, _ => none
    (evs, .ok (some { websetIds := websetIds, snapshot := snapshot, delta := delta }))

/-- `semanticCronWorkflow` (part_001 lines 680–997) as a trace function.
Cancellation checkpoints in source order: after validation (line 727),
inside the create loop before each creation (line 748, cancelling the
websets created so far), after creation (line 826, cancelling all on an
initial run and nothing on a re-evaluation), inside and after each poll
(lines 138 of helpers.ts and 860, cancelling), and after collection
(line 930, returning null WITHOUT cancelling).  A configuration whose
expanded form lost `join` or `signal` would crash the JS with a
`TypeError`; this is the `.error` with step `""`. -/
def semanticCron (o : CronOracle) (args : CronArgs) (fuel : ℕ) :
    Option (List Ev × Except WErr (Option CronResult)) :=
  let timeoutMs := args.timeout.getD 300000
  let evs0 : List Ev := [.progress "validating"]
  match cronValidate o args with
  | .error e => some (evs0, .error e)
  | .ok config =>
    -- checkpoint (line 727)
    if isCancelledAt o.cancelAt 0 then some (evs0, .ok none)
    else
      let isReeval := args.existingWebsets.isSome
      let total := config.lenses.length
      let indexed := (List.range total).zip config.lenses
      let afterMaps :
          Except WErr (Option (ℕ × List (String × String) ×
            List (String × List (String × String)) × List Ev)) :=
        if !isReeval then
          let (st, cancelled) := cronCreateLoop o total indexed
            { n := 1, created := 0, websetIds := [], enrichmentMaps := [], evs := evs0 }
          if cancelled then .ok none
          else .ok (some (st.n, st.websetIds, st.enrichmentMaps, st.evs))
        else
          match cronFetchLoop o total (args.existingWebsets.getD []) indexed [] evs0 with
          | .error e => .error e
          | .ok (eMaps, evs) => .ok (some (1, args.existingWebsets.getD [], eMaps, evs))
      match afterMaps with
      | .error e => some (evs0, .error e)
      | .ok none =>
        -- create loop observed cancellation and returned null
        let (st, _) := cronCreateLoop o total indexed
          { n := 1, created := 0, websetIds := [], enrichmentMaps := [], evs := evs0 }
        some (st.evs, .ok none)
      | .ok (some (n1, websetIds, enrichmentMaps, evs1)) =>
        -- checkpoint (line 826)
        if isCancelledAt o.cancelAt n1 then
          if !isReeval then
            some (evs1 ++ websetIds.map (fun p => Ev.cancelWebset p.2), .ok none)
          else some (evs1, .ok none)
        else
          let afterPoll : Option PollLoopOut :=
            if !isReeval then
              cronPollLoop o total websetIds timeoutMs fuel indexed (n1 + 1) evs1
            else some (.done (n1 + 1) evs1)
          match afterPoll with
          | none => none
          | some (.threw e evs) => some (evs, .error e)
          | some (.nullReturn evs) => some (evs, .ok none)
          | some (.done n2 evs2) =>
            let evs3 := evs2 ++ [Ev.progress "collecting items"]
            let lensResults := config.lenses.map
              (cronCollectLens o config websetIds enrichmentMaps)
            -- checkpoint (line 930): returns null WITHOUT cancelling
            if isCancelledAt o.cancelAt n2 then some (evs3, .ok none)
            else
              match config.join, config.signal with
              | some joinCfg, some signalCfg =>
                some (cronTail o config joinCfg signalCfg websetIds lensResults
                  isReeval args.previousSnapshot evs3)
              | _, _ =>
                some (evs3, .error ⟨"TypeError: config.join/config.signal is undefined", ""⟩)

/-! ## 11. Statement-support definitions -/

/-- Decidable equality on `Except` (not provided by the library),
needed to `decide` concrete workflow runs. -/
instance {ε α : Type} [DecidableEq ε] [DecidableEq α] :
    DecidableEq (Except ε α)
  | .ok a, .ok b =>
    if h : a = b then .isTrue (congrArg Except.ok h)
    else .isFalse (fun hc => h (Except.ok.inj hc))
  | .error a, .error b =>
    if h : a = b then .isTrue (congrArg Except.error h)
    else .isFalse (fun hc => h (Except.error.inj hc))
  | .ok _, .error _ => .isFalse (fun hc => Except.noConfusion hc)
  | .error _, .ok _ => .isFalse (fun hc => Except.noConfusion hc)

/-- "The entity satisfies the signal rule" (used to state C10): `all` =
present in every declared lens, `any` = trivially, `threshold` = lens
count at least `min` (default 2), `combination` = some sufficient set is
contained in its lenses. -/
def entitySatisfiesRule (cfg : SignalConfig) (allLensIds : List String)
    (e : JoinedEntity) : Prop :=
  match cfg.requires.type with
  | .all => ∀ id ∈ allLensIds, id ∈ e.presentInLenses
  | .any => True
  | .threshold => (cfg.requires.min.getD 2) ≤ (e.lensCount : ℚ)
  | .combination =>
    ∃ combo ∈ cfg.requires.sufficient.getD [], ∀ l ∈ combo, l ∈ e.presentInLenses

/-- Concrete joined entity for the C10 witness. -/
def c10entity : JoinedEntity :=
  { entity := "Acme"
    url := "u"
    presentInLenses := ["A"]
    lensCount := 1
    shapes := [] }

/-- Lens result for the C1 counterexample: one shaped item named
`night`, with no URL. -/
def c1lr1 : LensResult :=
  { lensId := "lens1"
    shapedItems := [{ id := "i1", name := "night", url := "", createdAt := "t0" }] }

/-- Shaped item named `nacht` with no URL;
`dice("nacht","night") = 1/4` exactly. -/
def c1item2 : ShapedItem :=
  { id := "i2", name := "nacht", url := "", createdAt := "t0" }

/-- Second lens result for the C1 counterexample. -/
def c1lr2 : LensResult :=
  { lensId := "lens2"
    shapedItems := [c1item2] }

/-- Join rule for the C1 counterexample: entity join with
`nameThreshold = 1/4` and `minLensOverlap = 1`. -/
def c1cfg : JoinConfig :=
  { joinBy := .entity
    entityMatch := some { nameThreshold := some (1/4) }
    minLensOverlap := some 1 }

/-- Concrete one-entity join result for the C10 witness. -/
def c10jr : JoinResult :=
  { type := "entity"
    entities := [c10entity]
    lensesWithEvidence := ["A"] }

/-- Concrete `any` signal rule for the C10 witness. -/
def c10cfg : SignalConfig := { requires := { type := .any } }

/-- Concrete item for the C5 computations: criterion A satisfied,
criterion B not. -/
def c5item : Item :=
  { evaluations := some
      [{ criterion := some "A", satisfied := some "yes" },
       { criterion := some "B", satisfied := some "no" }] }

/-- Concrete raw company item for the C8 computations. -/
def c8item : Item :=
  { id := some "item-1"
    properties := some
      { type := some "company"
        url := some "https://acme.com"
        description := some "A company that makes everything"
        company := some { name := some "Acme Corp" } } }

/-- The number of items at which `collectGo` actually stops for a given
rational cap: at least one item is pushed before the first length check,
so a cap below 1 still yields one item. -/
def capNat (cap : ℚ) : ℕ := max 1 (Int.toNat ⌈cap⌉)

/-- A trivial JS environment for concrete runs. -/
def trivialEnv : JsEnv :=
  { parseNumber := fun _ => none
    regexTest := fun _ _ => false
    parseDate := fun _ => none
    now := 0 }

/-- An upstream stream of 60 trivial items (C9). -/
def c9stream : List Item := List.replicate 60 {}

/-- A cron oracle whose webset streams 60 items (C9 counterexample). -/
def c9cronOracle : CronOracle :=
  { cancelAt := none
    createdWebset := fun _ => {}
    getWebset := fun _ => {}
    pollFor := fun _ => { fetch := fun _ => {}, now := fun _ => 0, start := 0 }
    stream := fun _ => c9stream
    expandC := fun c _ => .ok c
    env := trivialEnv
    nowISO := "t" }

/-- A harvest oracle with an immediately idle webset and a three-item
stream (C9 witness). -/
def c9oracle : HarvestOracle :=
  { cancelAt := none
    websetId := "ws1"
    poll := { fetch := fun _ => { status := "idle" }, now := fun _ => 0, start := 0 }
    stream := List.replicate 3 {} }

/-- Valid harvest arguments with the default count (C9 witness). -/
def c9args : HarvestArgs :=
  { query := some "q", entity := some { type := some "company" } }

/-- The events of the C9 witness run. -/
def c9runEvs : List Ev :=
  [.progress "creating", .createWebset "ws1", .progress "polling",
   .progress "collecting", .progress "complete"]

/-- The result of the C9 witness run. -/
def c9runRes : HarvestResult :=
  { websetId := "ws1"
    items := List.replicate 3 {}
    itemCount := 3
    searchProgress := none
    enrichmentCount := 0
    timedOut := false }

/-- C2 counterexample configuration text: a well-formed semantic-cron
JSON whose `name` field is the token `\x7b\x7bab\x7b\x7ba\x7d\x7d` (inner
text `ab\x7b\x7ba`, not a key of the variable map). -/
def c2text : String :=
  "\x7b\"lenses\":[\x7b\"source\":\x7b\"query\":\"q\"\x7d,\"id\":\"x\"\x7d],\"shapes\":[\x7b\"lensId\":\"x\",\"conditions\":[],\"logic\":\"all\"\x7d],\"join\":\x7b\"by\":\"entity\"\x7d,\"signal\":\x7b\"requires\":\x7b\"type\":\"any\"\x7d,\"proxy\":\"p\"\x7d,\"name\":\"\x7b\x7bab\x7b\x7ba\x7d\x7d\"\x7d"

/-- The variable map of the C2 counterexample: the single key `a`,
mapped to the empty string. -/
def c2vars : List (String × String) := [("a", "")]

/-- The residual-looking token inside `c2text`. -/
def c2token : String := "\x7b\x7bab\x7b\x7ba\x7d\x7d"

/-- The inner text of `c2token` (what the regex captures between the
braces); it is not a key of `c2vars`. -/
def c2inner : String := "ab\x7b\x7ba"

/-- The part of `c2text` before `c2token`. -/
def c2pre : String :=
  "\x7b\"lenses\":[\x7b\"source\":\x7b\"query\":\"q\"\x7d,\"id\":\"x\"\x7d],\"shapes\":[\x7b\"lensId\":\"x\",\"conditions\":[],\"logic\":\"all\"\x7d],\"join\":\x7b\"by\":\"entity\"\x7d,\"signal\":\x7b\"requires\":\x7b\"type\":\"any\"\x7d,\"proxy\":\"p\"\x7d,\"name\":\""

/-- The part of `c2text` after `c2token`. -/
def c2suf : String := "\"\x7d"

/-- What substitution of `\x7b\x7ba\x7d\x7d := ""` leaves of `c2text`:
the `name` field becomes `\x7b\x7bab`, which no longer matches the
residual-token regex. -/
def c2expanded : String :=
  "\x7b\"lenses\":[\x7b\"source\":\x7b\"query\":\"q\"\x7d,\"id\":\"x\"\x7d],\"shapes\":[\x7b\"lensId\":\"x\",\"conditions\":[],\"logic\":\"all\"\x7d],\"join\":\x7b\"by\":\"entity\"\x7d,\"signal\":\x7b\"requires\":\x7b\"type\":\"any\"\x7d,\"proxy\":\"p\"\x7d,\"name\":\"\x7b\x7bab\"\x7d"

/-- A one-token text for the C2 amended-theorem witness: just
`\x7b\x7bx\x7d\x7d`, with no variables. -/
def c2wtext : String := "\x7b\x7bx\x7d\x7d"


/-- Date parser for the C4 fixtures: every string parses to time 0. -/
def c4dp : String → Option ℚ := fun _ => some 0

/-- Single shaped item of the C4 counterexample (no URL, name `x`). -/
def c4item : ShapedItem := { id := "i1", name := "x", url := "", createdAt := "t0" }

/-- A single lens result (all items from one lens) for the C4
counterexample. -/
def c4lrs : List LensResult := [{ lensId := "lensA", shapedItems := [c4item] }]

/-- C4 counterexample configuration: `entity+temporal` join whose
`temporal.days` is present but `0` (JS-falsy), with `minLensOverlap` 1. -/
def c4cfg : JoinConfig :=
  { joinBy := .entityTemporal
    temporal := some { days := some 0 }
    minLensOverlap := some 1 }

/-- First C4-witness item (lens `A`, URL `u`). -/
def c4witem1 : ShapedItem := { id := "i1", name := "x", url := "u", createdAt := "t0" }

/-- Second C4-witness item (lens `B`, same URL `u`). -/
def c4witem2 : ShapedItem := { id := "i2", name := "x", url := "u", createdAt := "t1" }

/-- Two lens results sharing one URL, for the C4 witness. -/
def c4wlrs : List LensResult :=
  [{ lensId := "A", shapedItems := [c4witem1] },
   { lensId := "B", shapedItems := [c4witem2] }]

/-- C4 witness configuration: `entity+temporal` with `temporal.days = 1`. -/
def c4wcfg : JoinConfig :=
  { joinBy := .entityTemporal
    temporal := some { days := some 1 } }

/-- The single entity returned by the C4 witness join. -/
def c4went : JoinedEntity :=
  { entity := "x", url := "u", presentInLenses := ["A", "B"], lensCount := 2,
    shapes := [("A", []), ("B", [])] }


/-- Valid harvest arguments for the C6 statements. -/
def c6args : HarvestArgs := { query := some "q", entity := some { type := some "company" } }

/-- C6 counterexample oracle: cancellation becomes visible at the third
check (`cancelAt = 2`), i.e. first at the post-poll checkpoint of an
immediately idle webset. -/
def c6oracle : HarvestOracle :=
  { cancelAt := some 2
    websetId := "ws1"
    poll := { fetch := fun _ => { status := "idle" }, now := fun _ => 0, start := 0 }
    stream := [] }

/-- C6 witness oracle for the post-creation checkpoint (`cancelAt = 1`). -/
def c6postCreateOracle : HarvestOracle :=
  { cancelAt := some 1
    websetId := "ws1"
    poll := { fetch := fun _ => { status := "idle" }, now := fun _ => 0, start := 0 }
    stream := [] }

/-- C6 witness oracle for the in-poll cancellation step: a webset that
stays `running`. -/
def c6pollOracle : PollOracle :=
  { fetch := fun _ => { status := "running" }, now := fun _ => 0, start := 0 }

/-- One-lens one-shape configuration for the C6 cron runs. -/
def c6cronCfg : SemanticCronConfig :=
  { lenses := [{ id := "x", source := { query := some "q" } }]
    shapes := [{ lensId := "x", conditions := [], logic := "all" }]
    join := some { joinBy := .entity }
    signal := some { requires := { type := .any } } }

/-- Cron arguments for the C6 runs (initial run, no variables). -/
def c6cronArgs : CronArgs := { config := some c6cronCfg }

/-- C6 cron oracle: cancellation becomes visible at the fifth check
(`cancelAt = 4`), i.e. first at the post-collect checkpoint. -/
def c6cronOracle : CronOracle :=
  { cancelAt := some 4
    createdWebset := fun _ => { id := "wsC", status := "idle" }
    getWebset := fun _ => {}
    pollFor := fun _ => { fetch := fun _ => { status := "idle" }, now := fun _ => 0, start := 0 }
    stream := fun _ => []
    expandC := fun c _ => .ok c
    env := trivialEnv
    nowISO := "t" }

/-- The create-loop state of the C6 cron run. -/
def c6cronSt : CreateSt :=
  { n := 2
    created := 1
    websetIds := [("x", "wsC")]
    enrichmentMaps := [("x", [])]
    evs := [.progress "validating", .progress "creating lens 1/1: x", .createWebset "wsC"] }

/-- The events accumulated by the C6 cron run when the poll loop is done. -/
def c6cronEvs2 : List Ev :=
  [.progress "validating", .progress "creating lens 1/1: x", .createWebset "wsC",
   .progress "polling lens 1/1: x"]

/-! ## Theorems -/

/-- C3: for every shape condition evaluated against an enrichment result
that is null/undefined (`none`) or the empty array, `evaluateCondition`
returns `false` for every operator, including `exists`; and `exists`
returns `true` exactly when the result is non-null, non-empty, and its
first string is non-empty. -/
theorem evaluateCondition_empty_exists :
    ∀ (env : JsEnv) (cond : Condition) (r : Option (List String)),
      evaluateCondition env cond none = false ∧
      evaluateCondition env cond (some []) = false ∧
      (evaluateCondition env { cond with operator := "exists" } r = true ↔
        ∃ first rest, r = some (first :: rest) ∧ 0 < first.length) := by
  intro env cond r
  refine ⟨?_, ?_, ?_⟩
  · by_cases h : cond.operator = "exists" <;> simp [evaluateCondition, h]
  · by_cases h : cond.operator = "exists" <;> simp [evaluateCondition, h]
  · cases r with
    | none => simp [evaluateCondition]
    | some l =>
      cases l with
      | nil => simp [evaluateCondition]
      | cons a t =>
        constructor
        · intro h
          refine ⟨a, t, rfl, ?_⟩
          simpa [evaluateCondition] using h
        · rintro ⟨f, rest, heq, hl⟩
          obtain ⟨rfl, rfl⟩ : a = f ∧ t = rest := by simpa using heq
          simpa [evaluateCondition] using hl

theorem coversCombo_iff (e : JoinedEntity) (combo : List String) :
    combo.all (fun lensId => e.presentInLenses.contains lensId) = true ↔
      ∀ l ∈ combo, l ∈ e.presentInLenses := by
  simp only [List.all_eq_true]
  constructor
  · intro h l hl; exact List.elem_iff.mp (h l hl)
  · intro h l hl; exact List.elem_iff.mpr (h l hl)

theorem firstComboMatch_ne_nil_iff (entities : List JoinedEntity) :
    ∀ combos : List (List String),
      (firstComboMatch entities combos).1 ≠ [] ↔
        ∃ combo ∈ combos, ∃ e ∈ entities, ∀ l ∈ combo, l ∈ e.presentInLenses := by
  intro combos
  induction combos with
  | nil => simp [firstComboMatch]
  | cons combo rest ih =>
    simp only [firstComboMatch]
    split
    next hpos =>
      obtain ⟨e, he⟩ := List.length_pos_iff_exists_mem.mp hpos
      have hmem := List.mem_filter.mp he
      constructor
      · intro _
        exact ⟨combo, List.mem_cons_self _ _, e, hmem.1, (coversCombo_iff e combo).mp hmem.2⟩
      · intro _
        intro hc
        have hc' : entities.filter
            (fun e => combo.all fun lensId => e.presentInLenses.contains lensId) = [] := hc
        rw [hc'] at hpos
        simp at hpos
    next hneg =>
      replace hneg := List.length_eq_zero.mp (Nat.le_zero.mp (not_lt.mp hneg))
      rw [ih]
      constructor
      · rintro ⟨c, hc, e, he, hcov⟩
        exact ⟨c, List.mem_cons_of_mem _ hc, e, he, hcov⟩
      · rintro ⟨c, hc, e, he, hcov⟩
        rcases List.mem_cons.mp hc with rfl | hc'
        · exfalso
          have : e ∈ entities.filter
              (fun e => c.all (fun lensId => e.presentInLenses.contains lensId)) :=
            List.mem_filter.mpr ⟨he, (coversCombo_iff e c).mpr hcov⟩
          rw [hneg] at this
          simp at this
        · exact ⟨c, hc', e, he, hcov⟩

/-- C10: `evaluateSignal` selects its evaluation base solely by whether
the join result contains at least one joined entity, not by the join
mode: with an empty `entities` list the rule is evaluated over
`lensesWithEvidence` and the returned result has `entities = []`; with a
non-empty list the rule is evaluated over the entities and `fired` is
true exactly when at least one entity satisfies the rule. -/
theorem evaluateSignal_base_selection :
    (∀ (jr : JoinResult) (cfg : SignalConfig) (allLensIds : List String)
        (r : SignalResult),
      jr.entities = [] → evaluateSignal jr cfg allLensIds = .ok r →
      r = evaluateSignalWithEvidence jr cfg allLensIds ∧ r.entities = []) ∧
    (∀ (jr : JoinResult) (cfg : SignalConfig) (allLensIds : List String)
        (r : SignalResult),
      jr.entities ≠ [] → evaluateSignal jr cfg allLensIds = .ok r →
      r = evaluateSignalWithEntities jr cfg allLensIds ∧
      (r.fired = true ↔ ∃ e ∈ jr.entities, entitySatisfiesRule cfg allLensIds e)) := by
  constructor
  · intro jr cfg ids r hnil hok
    unfold evaluateSignal at hok
    split at hok
    · exact absurd hok (by simp)
    · rw [if_neg (by simp [hnil])] at hok
      have hr : r = evaluateSignalWithEvidence jr cfg ids := by
        cases hok; rfl
      exact ⟨hr, by rw [hr]; rfl⟩
  · intro jr cfg ids r hne hok
    unfold evaluateSignal at hok
    split at hok
    · exact absurd hok (by simp)
    · rw [if_pos (List.length_pos_iff_ne_nil.mpr hne)] at hok
      have hr : r = evaluateSignalWithEntities jr cfg ids := by
        cases hok; rfl
      refine ⟨hr, ?_⟩
      rw [hr]
      cases hty : cfg.requires.type with
      | all =>
        simp only [evaluateSignalWithEntities, hty, entitySatisfiesRule,
          decide_eq_true_eq]
        rw [gt_iff_lt, List.length_pos_iff_exists_mem]
        constructor
        · rintro ⟨e, he⟩
          have h := List.mem_filter.mp he
          refine ⟨e, h.1, ?_⟩
          intro id hid
          have := List.all_eq_true.mp h.2 id hid
          exact List.elem_iff.mp this
        · rintro ⟨e, he, hcov⟩
          refine ⟨e, List.mem_filter.mpr ⟨he, List.all_eq_true.mpr ?_⟩⟩
          intro id hid
          exact List.elem_iff.mpr (hcov id hid)
      | any =>
        simp only [evaluateSignalWithEntities, hty, entitySatisfiesRule,
          decide_eq_true_eq]
        rw [gt_iff_lt, List.length_pos_iff_exists_mem]
        constructor
        · rintro ⟨e, he⟩; exact ⟨e, he, trivial⟩
        · rintro ⟨e, he, -⟩; exact ⟨e, he⟩
      | threshold =>
        simp only [evaluateSignalWithEntities, hty, entitySatisfiesRule,
          decide_eq_true_eq]
        rw [gt_iff_lt, List.length_pos_iff_exists_mem]
        constructor
        · rintro ⟨e, he⟩
          have h := List.mem_filter.mp he
          exact ⟨e, h.1, ge_iff_le.mp (of_decide_eq_true h.2)⟩
        · rintro ⟨e, he, hge⟩
          exact ⟨e, List.mem_filter.mpr ⟨he, decide_eq_true (ge_iff_le.mpr hge)⟩⟩
      | combination =>
        simp only [evaluateSignalWithEntities, hty, entitySatisfiesRule,
          decide_eq_true_eq]
        rw [gt_iff_lt, List.length_pos_iff_ne_nil, firstComboMatch_ne_nil_iff]
        constructor
        · rintro ⟨c, hc, e, he, hcov⟩; exact ⟨e, he, c, hc, hcov⟩
        · rintro ⟨e, he, c, hc, hcov⟩; exact ⟨c, hc, e, he, hcov⟩

/-- C10 witness: a one-entity join with an `any` rule, via
`evaluateSignal_base_selection`. -/
theorem evaluateSignal_base_selection_witness :
    (evaluateSignalWithEntities c10jr c10cfg ["A"]).fired = true ↔
      ∃ e ∈ c10jr.entities, entitySatisfiesRule c10cfg ["A"] e :=
  (evaluateSignal_base_selection.2 c10jr c10cfg ["A"]
    (evaluateSignalWithEntities c10jr c10cfg ["A"])
    (by simp [c10jr]) (by rfl)).2

theorem nicheChars_length :
    ∀ v : List Bool, v ≠ [] → (nicheChars v).length = 2 * v.length - 1 := by
  intro v
  induction v with
  | nil => simp
  | cons b t ih =>
    intro _
    cases t with
    | nil => simp [nicheChars]
    | cons c cs =>
      have := ih (by simp)
      simp only [nicheChars, List.length_cons] at this ⊢
      omega

theorem nicheChars_mem :
    ∀ (v : List Bool), ∀ c ∈ nicheChars v, c = '0' ∨ c = '1' ∨ c = ',' := by
  intro v
  induction v with
  | nil => simp [nicheChars]
  | cons b t ih =>
    cases t with
    | nil =>
      intro c hc
      cases b <;> simp [nicheChars] at hc <;> simp [hc]
    | cons d ds =>
      intro c hc
      simp only [nicheChars, List.mem_cons] at hc
      rcases hc with rfl | rfl | hc
      · cases b <;> simp
      · simp
      · exact ih c hc

theorem nicheChars_filter_length :
    ∀ v : List Bool,
      ((nicheChars v).filter (fun c => c ≠ ',')).length = v.length := by
  intro v
  induction v with
  | nil => simp [nicheChars]
  | cons b t ih =>
    cases t with
    | nil => cases b <;> simp [nicheChars]
    | cons d ds => cases b <;> simp [nicheChars, List.filter_cons] at ih ⊢ <;> omega

/-- C5 counterexample: with two criteria, `classifyItem`'s niche string
is the comma-separated `"1,0"` — length 3, not 2, and it contains a comma
— refuting "length equal to N and every character '0' or '1'". -/
theorem classifyItem_niche_counterexample :
    (classifyItem c5item ["A", "B"]).vector = [true, false] ∧
    (classifyItem c5item ["A", "B"]).niche = "1,0" ∧
    (classifyItem c5item ["A", "B"]).niche.length = 3 ∧
    (["A", "B"] : List String).length = 2 ∧
    ¬((classifyItem c5item ["A", "B"]).niche.length = 2) ∧
    ',' ∈ (classifyItem c5item ["A", "B"]).niche.toList := by decide

/-- C5 (amended): the niche string of `classifyItem` over `N ≥ 1`
criteria is the comma-separated encoding of the boolean vector: its
length is `2·N − 1`, every character is `'0'`, `'1'` or `','`, and the
non-comma characters — one per criterion — are each `'0'` or `'1'`. -/
theorem classifyItem_niche_amended (item : Item) (criteria : List String)
    (hne : criteria ≠ []) :
    (classifyItem item criteria).niche.length = 2 * criteria.length - 1 ∧
    (∀ c ∈ (classifyItem item criteria).niche.toList,
      c = '0' ∨ c = '1' ∨ c = ',') ∧
    ((classifyItem item criteria).niche.toList.filter
      (fun c => c ≠ ',')).length = criteria.length ∧
    (∀ c ∈ (classifyItem item criteria).niche.toList.filter (fun c => c ≠ ','),
      c = '0' ∨ c = '1') := by
  have hv : (classifyItem item criteria).vector.length = criteria.length := by
    simp [classifyItem]
  have hvne : (classifyItem item criteria).vector ≠ [] := by
    intro h
    rw [h] at hv
    exact hne (List.length_eq_zero.mp hv.symm)
  have hni : (classifyItem item criteria).niche =
      String.mk (nicheChars (classifyItem item criteria).vector) := rfl
  refine ⟨?_, ?_, ?_, ?_⟩
  · rw [hni]
    show (nicheChars (classifyItem item criteria).vector).length = _
    rw [nicheChars_length _ hvne, hv]
  · rw [hni]
    intro c hc
    exact nicheChars_mem _ c hc
  · rw [hni]
    show ((nicheChars (classifyItem item criteria).vector).filter _).length = _
    rw [nicheChars_filter_length, hv]
  · rw [hni]
    intro c hc
    have hm := nicheChars_mem _ c (List.mem_of_mem_filter hc)
    have hne' : c ≠ ',' := by simpa using List.of_mem_filter hc
    rcases hm with h | h | h
    · exact Or.inl h
    · exact Or.inr h
    · exact absurd h hne'

/-- C5 witness: the amended statement at the concrete two-criteria item,
via `classifyItem_niche_amended`. -/
theorem classifyItem_niche_amended_witness :
    (classifyItem c5item ["A", "B"]).niche.length = 2 * 2 - 1 ∧
    ((classifyItem c5item ["A", "B"]).niche.toList.filter
      (fun c => c ≠ ',')).length = 2 := by
  have h := classifyItem_niche_amended c5item ["A", "B"] (by decide)
  exact ⟨h.1, h.2.2.1⟩

/-- C8 counterexample: `projectItem` is not idempotent — the projected
item has no `properties`, so a second projection resets the extracted
name to `"unknown"`.  The input is an ordinary projection-compatible raw
company item. -/
theorem projectItem_not_idempotent :
    projectItem (projectItem c8item) ≠ projectItem c8item ∧
    (projectItem c8item).name = some "Acme Corp" ∧
    (projectItem (projectItem c8item)).name = some "unknown" := by decide

/-- C8 (amended): double projection agrees with single projection on
`id` and the projected `evaluations`/`enrichments`, but resets the
property-derived fields: `name` and `entityType` to `"unknown"`, `url`
and `description` to `""`.  Hence `projectItem` is idempotent at exactly
the items whose single projection already carries those default
values. -/
theorem projectItem_twice (x : Item) :
    projectItem (projectItem x) =
      { projectItem x with
        name := some "unknown"
        url := some ""
        entityType := some "unknown"
        description := some "" } := by
  have he : ∀ l : List EvalRec, (l.map projectEval).map projectEval = l.map projectEval := by
    intro l
    rw [List.map_map]
    rfl
  have hn : ∀ l : List EnrichRec,
      (l.map projectEnrich).map projectEnrich = l.map projectEnrich := by
    intro l
    rw [List.map_map]
    rfl
  cases x with
  | mk id props evals enrs name url etype desc created =>
    cases evals <;> cases enrs <;>
      simp [projectItem, extractItemFields, he, hn]

theorem one_le_capNat (cap : ℚ) : 1 ≤ capNat cap := le_max_left _ _

theorem cast_ge_iff_capNat {n : ℕ} (hn : 1 ≤ n) (cap : ℚ) :
    ((n : ℚ) ≥ cap) ↔ capNat cap ≤ n := by
  unfold capNat
  rw [max_le_iff]
  constructor
  · intro h
    refine ⟨hn, ?_⟩
    rw [Int.toNat_le, Int.ceil_le]
    push_cast
    exact h
  · rintro ⟨-, h⟩
    rw [Int.toNat_le, Int.ceil_le] at h
    push_cast at h
    exact h

theorem collectGo_eq (cap : ℚ) :
    ∀ (xs acc : List Item), acc.length < capNat cap →
      collectGo cap acc xs = acc ++ xs.take (capNat cap - acc.length) := by
  intro xs
  induction xs with
  | nil => intro acc _; simp [collectGo]
  | cons x xs ih =>
    intro acc hlt
    have h1 : 1 ≤ (acc ++ [x]).length := by simp
    simp only [collectGo]
    by_cases hstop : ((acc ++ [x]).length : ℚ) ≥ cap
    · rw [if_pos hstop]
      have hge := (cast_ge_iff_capNat h1 cap).mp hstop
      have hkk : capNat cap - acc.length = 1 := by
        simp only [List.length_append, List.length_cons, List.length_nil] at hge
        omega
      rw [hkk]
      simp
    · rw [if_neg hstop]
      have hlt2 : (acc ++ [x]).length < capNat cap := by
        rcases lt_or_ge ((acc ++ [x]).length) (capNat cap) with h | h
        · exact h
        · exact absurd ((cast_ge_iff_capNat h1 cap).mpr h) hstop
      rw [ih _ hlt2]
      rw [List.append_assoc]
      congr 1
      have hlen : (acc ++ [x]).length = acc.length + 1 := by simp
      rw [hlen]
      obtain ⟨m, hm⟩ : ∃ m, capNat cap - acc.length = m + 1 :=
        ⟨capNat cap - acc.length - 1, by omega⟩
      rw [hm]
      have hm2 : capNat cap - (acc.length + 1) = m := by omega
      rw [hm2, List.take_succ_cons]
      rfl

theorem collectItems_length (stream : List Item) (cap : ℚ) :
    (collectItems stream cap).length = min stream.length (capNat cap) := by
  unfold collectItems
  rw [collectGo_eq cap stream [] (by simpa using one_le_capNat cap)]
  simp [List.length_take, Nat.min_comm]

/-- C9 counterexample: `collectItems`'s declared default cap is `1000`,
not `2 × count` — with the workflow's default `count = 25` a 60-item
stream comes back whole (60 > 50); and `semantic.cron`'s collect step
(`cronCollectLens`) passes no cap at all, so it also returns all 60. -/
theorem collectItems_default_cap_counterexample :
    (collectItems c9stream).length = 60 ∧
    ¬((collectItems c9stream).length ≤ 2 * 25) ∧
    (cronCollectLens c9cronOracle {} [("l1", "ws1")] [] ⟨"l1", {}⟩).totalItems = 60 := by
  refine ⟨by decide, by decide, by decide⟩

/-- C9 (amended): `collectItems` returns
`min (stream length) (max 1 ⌈cap⌉)` items — at most the cap whenever
`cap ≥ 1`; the default cap when the caller passes none is `1000`;
`semantic.cron`'s collect step uses that default, while
`lifecycle.harvest` passes `2 × count` explicitly. -/
theorem collectItems_cap_amended :
    (∀ (stream : List Item) (cap : ℚ),
      (collectItems stream cap).length = min stream.length (capNat cap)) ∧
    capNat 1000 = 1000 ∧
    (∀ (o : CronOracle) (config : SemanticCronConfig)
        (wsIds : List (String × String))
        (maps : List (String × List (String × String))) (lens : LensConfig),
      (cronCollectLens o config wsIds maps lens).totalItems =
        (collectItems (o.stream ((lookupAssoc wsIds lens.id).getD "")) 1000).length) ∧
    (∀ (o : HarvestOracle) (args : HarvestArgs) (fuel : ℕ) (evs : List Ev)
        (r : HarvestResult),
      lifecycleHarvest o args fuel = some (evs, .ok (some r)) →
      r.items = collectItems o.stream (args.count.getD 25 * 2)) := by
  refine ⟨collectItems_length, by decide, fun _ _ _ _ _ => rfl, ?_⟩
  intro o args fuel evs r h
  unfold lifecycleHarvest at h
  dsimp only at h
  split at h
  · exact absurd h (by simp)
  split at h
  · exact absurd h (by simp)
  split at h
  · exact absurd h (by simp)
  split at h
  · exact absurd h (by simp)
  split at h
  · exact absurd h (by simp)
  split at h
  · exact absurd h (by simp)
  · exact absurd h (by simp)
  split at h
  · exact absurd h (by simp)
  simp only [Option.some.injEq, Prod.mk.injEq, Except.ok.injEq] at h
  obtain ⟨-, h2⟩ := h
  cases h2
  rfl

/-- C9 witness: a concrete harvest run with default `count`,
via `collectItems_cap_amended`. -/
theorem collectItems_cap_amended_witness :
    c9runRes.items = collectItems c9oracle.stream (c9args.count.getD 25 * 2) :=
  collectItems_cap_amended.2.2.2 c9oracle c9args 1 c9runEvs c9runRes (by decide)

/-- C1 counterexample: at `nameThreshold = 1/4`, an item whose name has
Dice coefficient exactly `1/4` against the sole existing entry — i.e.
**at least** the threshold — is NOT folded into it (the source compares
with strict `>`): the entity map keeps two separate entries and the join
returns two single-lens entities instead of one two-lens entity. -/
theorem joinEntity_threshold_counterexample :
    diceCoefficient "nacht" "night" = 1/4 ∧
    (1/4 : ℚ) ≤ diceCoefficient "nacht" "night" ∧
    (buildEntityMap (1/4) [c1lr1, c1lr2]).length = 2 ∧
    (joinLensResults (fun _ => some 0) c1cfg [c1lr1, c1lr2]).entities.length = 2 := by
  refine ⟨by decide, by decide, by decide, by decide⟩

/-- C1 (amended): in the entity join, a shaped item that URL-matches no
existing entry is folded into an existing entry exactly when some entry
has a **strictly greater** Dice coefficient than the configured
threshold between the item's name and the entry's canonical name (both
truthy); otherwise a new entry keyed by `url || name || id` is created. -/
theorem insertShapedItem_fold_iff (t : ℚ) (lensId : String)
    (m : List (String × JoinEntry)) (si : ShapedItem)
    (hnourl : ∀ p ∈ m, ¬(si.url ≠ "" ∧ p.2.url ≠ "" ∧ si.url = p.2.url)) :
    ((m.any (fun p => matchesEntry t si p.2) = true) ↔
      ∃ p ∈ m, si.name ≠ "" ∧ p.2.entity ≠ "" ∧
        t < diceCoefficient si.name p.2.entity) ∧
    (m.any (fun p => matchesEntry t si p.2) = true →
      insertShapedItem t lensId m si = updateFirst t lensId si m) ∧
    (m.any (fun p => matchesEntry t si p.2) = false →
      insertShapedItem t lensId m si =
        mapSet m (jsOrS si.url (jsOrS si.name si.id)) (newEntry lensId si)) := by
  refine ⟨?_, ?_, ?_⟩
  · rw [List.any_eq_true]
    constructor
    · rintro ⟨p, hp, hm⟩
      simp only [matchesEntry, Bool.or_eq_true, Bool.and_eq_true, bne_iff_ne,
        ne_eq, beq_iff_eq, decide_eq_true_eq] at hm
      rcases hm with ⟨⟨hu1, hu2⟩, hu3⟩ | ⟨⟨hn1, hn2⟩, hd⟩
      · exact absurd ⟨hu1, hu2, hu3⟩ (hnourl p hp)
      · exact ⟨p, hp, hn1, hn2, hd⟩
    · rintro ⟨p, hp, hn1, hn2, hd⟩
      refine ⟨p, hp, ?_⟩
      simp only [matchesEntry, Bool.or_eq_true, Bool.and_eq_true, bne_iff_ne,
        ne_eq, beq_iff_eq, decide_eq_true_eq]
      exact Or.inr ⟨⟨hn1, hn2⟩, hd⟩
  · intro h
    simp [insertShapedItem, h]
  · intro h
    simp [insertShapedItem, h]

/-- C1 witness: a map with one entry of name `night` and an incoming
item of name `nacht` at threshold `1/5` (coefficient `1/4 > 1/5`), via
`insertShapedItem_fold_iff`. -/
theorem insertShapedItem_fold_iff_witness :
    (buildEntityMap (1/5) [c1lr1]).any
      (fun p => matchesEntry (1/5) c1item2 p.2) = true ↔
      ∃ p ∈ buildEntityMap (1/5) [c1lr1],
        c1item2.name ≠ "" ∧ p.2.entity ≠ "" ∧
          (1/5 : ℚ) < diceCoefficient c1item2.name p.2.entity :=
  (insertShapedItem_fold_iff (1/5) "lens2" (buildEntityMap (1/5) [c1lr1])
    c1item2 (by decide)).1

theorem pollGo_timeout (o : PollOracle) (cancelAt : Option ℕ) (wsId : String)
    (deadline : ℚ) (k : ℕ) :
    ∀ (j n fuel : ℕ),
      (∀ i < k, (o.fetch (j + i)).status ≠ "idle" ∧
        (o.fetch (j + i)).status ≠ "paused" ∧
        ¬(o.now (j + i) ≥ deadline) ∧
        isCancelledAt cancelAt (n + i) = false) →
      (o.fetch (j + k)).status ≠ "idle" →
      (o.fetch (j + k)).status ≠ "paused" →
      o.now (j + k) ≥ deadline →
      k < fuel →
      ∃ evs, pollGo o cancelAt wsId deadline fuel j n =
        some (evs, n + k, .ok ⟨o.fetch (j + k), true⟩) := by
  induction k with
  | zero =>
    intro j n fuel _ hidle hpaused hdl hfuel
    obtain ⟨f, rfl⟩ : ∃ f, fuel = f + 1 :=
      ⟨fuel - 1, by omega⟩
    refine ⟨[], ?_⟩
    simp only [pollGo, Nat.add_zero] at hidle hpaused hdl ⊢
    rw [if_neg hidle, if_neg hpaused, if_pos hdl]
  | succ k ih =>
    intro j n fuel hpre hidle hpaused hdl hfuel
    obtain ⟨f, rfl⟩ : ∃ f, fuel = f + 1 := ⟨fuel - 1, by omega⟩
    have h0 := hpre 0 (Nat.succ_pos k)
    simp only [Nat.add_zero] at h0
    obtain ⟨evs, hrec⟩ := ih (j + 1) (n + 1) f
      (fun i hi => by
        have := hpre (i + 1) (by omega)
        constructor
        · have h1 := this.1
          rwa [show j + (i + 1) = j + 1 + i by omega] at h1
        constructor
        · have h1 := this.2.1
          rwa [show j + (i + 1) = j + 1 + i by omega] at h1
        constructor
        · have h1 := this.2.2.1
          rwa [show j + (i + 1) = j + 1 + i by omega] at h1
        · have h1 := this.2.2.2
          rwa [show n + (i + 1) = n + 1 + i by omega] at h1)
      (by rwa [show j + 1 + k = j + (k + 1) by omega])
      (by rwa [show j + 1 + k = j + (k + 1) by omega])
      (by rwa [show j + 1 + k = j + (k + 1) by omega])
      (by omega)
    refine ⟨(if hasLastSearchProgress (o.fetch j) then [.progress "searching"] else []) ++
      evs, ?_⟩
    simp only [pollGo]
    rw [if_neg h0.1, if_neg h0.2.1, if_neg h0.2.2.1, if_neg (by simp [h0.2.2.2])]
    rw [hrec]
    rw [show n + 1 + k = n + (k + 1) by omega, show j + 1 + k = j + (k + 1) by omega]

/-- C7: (1) when the deadline has elapsed at the `k`-th poll refresh and
the webset is then neither `idle` nor `paused` (and neither state nor
cancellation ended the loop earlier), `pollUntilIdle` returns the last
fetched webset with `timedOut = true` instead of throwing; and (2) a
`lifecycle.harvest` execution of a never-cancelled task whose poll step
times out still completes — not fails — with a result carrying the
created `websetId` and `timedOut := true`. -/
theorem pollUntilIdle_timeout_returns :
    (∀ (o : PollOracle) (cancelAt : Option ℕ) (wsId : String) (timeoutMs : ℚ)
        (k n fuel : ℕ),
      (∀ i < k, (o.fetch i).status ≠ "idle" ∧ (o.fetch i).status ≠ "paused" ∧
        ¬(o.now i ≥ o.start + timeoutMs) ∧ isCancelledAt cancelAt (n + i) = false) →
      (o.fetch k).status ≠ "idle" →
      (o.fetch k).status ≠ "paused" →
      o.now k ≥ o.start + timeoutMs →
      k < fuel →
      ∃ evs, pollUntilIdle o cancelAt wsId timeoutMs fuel n =
        some (evs, n + k, .ok ⟨o.fetch k, true⟩)) ∧
    (∀ (o : HarvestOracle) (args : HarvestArgs) (fuel : ℕ)
        (pevs : List Ev) (n' : ℕ) (pr : PollRes),
      o.cancelAt = none →
      args.query.isSome →
      (∃ e, args.entity = some e ∧ e.type.isSome) →
      pollUntilIdle o.poll none o.websetId (args.timeout.getD 300000) fuel 2 =
        some (pevs, n', .ok pr) →
      pr.timedOut = true →
      ∃ evs r, lifecycleHarvest o args fuel = some (evs, .ok (some r)) ∧
        r.websetId = o.websetId ∧ r.timedOut = true) := by
  constructor
  · intro o cancelAt wsId timeoutMs k n fuel hpre hidle hpaused hdl hfuel
    have h := pollGo_timeout o cancelAt wsId (o.start + timeoutMs) k 0 n fuel
      (by simpa using hpre) (by simpa using hidle) (by simpa using hpaused)
      (by simpa using hdl) hfuel
    rw [Nat.zero_add] at h
    exact h
  · intro o args fuel pevs n' pr hcan hq hent hpoll hto
    obtain ⟨e, he, het⟩ := hent
    unfold lifecycleHarvest
    rw [hcan]
    rw [if_neg (show ¬(args.query.isNone = true) by
      simp [Option.isNone_iff_eq_none]
      exact Option.isSome_iff_ne_none.mp hq)]
    rw [he]
    dsimp only
    rw [if_neg (show ¬(e.type.isNone = true) by
      simp [Option.isNone_iff_eq_none]
      exact Option.isSome_iff_ne_none.mp het)]
    rw [if_neg (show ¬(isCancelledAt none 0 = true) by simp [isCancelledAt])]
    rw [if_neg (show ¬(isCancelledAt none 1 = true) by simp [isCancelledAt])]
    rw [hpoll]
    dsimp only
    rw [if_neg (show ¬(isCancelledAt none n' = true) by simp [isCancelledAt])]
    exact ⟨_, _, rfl, rfl, hto⟩

/-- C7 witness: a concrete stalled webset and a zero timeout, via
`pollUntilIdle_timeout_returns`. -/
theorem pollUntilIdle_timeout_returns_witness :
    ∃ evs r, lifecycleHarvest
        { cancelAt := none
          websetId := "wsT"
          poll := { fetch := fun _ => { status := "running" }, now := fun _ => 5, start := 0 }
          stream := [] }
        { query := some "q", entity := some { type := some "company" },
          timeout := some 1 } 1 =
      some (evs, .ok (some r)) ∧ r.websetId = "wsT" ∧ r.timedOut = true := by
  refine pollUntilIdle_timeout_returns.2 _ _ 1 [] 2
    { webset := { status := "running" }, timedOut := true }
    rfl (by decide) ⟨_, rfl, by decide⟩ (by decide) rfl

/-! ### C2: template expansion and residual tokens -/

theorem length_dropWhile_le (p : Char → Bool) (l : List Char) :
    (l.dropWhile p).length ≤ l.length :=
  (List.dropWhile_suffix p).length_le

theorem tokenAt_rest_length {s tok rest : List Char}
    (h : tokenAt s = some (tok, rest)) : rest.length + 1 < s.length := by
  match s with
  | [] => simp [tokenAt] at h
  | [c] => simp [tokenAt] at h
  | c1 :: c2 :: r =>
    simp only [tokenAt] at h
    split at h
    · split at h
      next d1 d2 rest2 hdrop =>
        split at h
        · simp only [Option.some.injEq, Prod.mk.injEq] at h
          obtain ⟨-, rfl⟩ := h
          have h1 : (List.dropWhile (fun c => c ≠ '}') r).length ≤ r.length :=
            length_dropWhile_le _ _
          rw [hdrop] at h1
          simp only [List.length_cons] at h1 ⊢
          omega
        · exact absurd h (by simp)
      all_goals exact absurd h (by simp)
    · exact absurd h (by simp)

theorem takeWhile_append_stop (p : Char → Bool) (l1 l2 : List Char) (d : Char)
    (h1 : ∀ c ∈ l1, p c = true) (hd : p d = false) :
    (l1 ++ d :: l2).takeWhile p = l1 ∧ (l1 ++ d :: l2).dropWhile p = d :: l2 := by
  induction l1 with
  | nil => simp [List.takeWhile_cons, List.dropWhile_cons, hd]
  | cons c l1 ih =>
    have hc : p c = true := h1 c (List.mem_cons_self c l1)
    have ih' := ih (fun x hx => h1 x (List.mem_cons_of_mem c hx))
    simp only [List.cons_append, List.takeWhile_cons, List.dropWhile_cons, hc,
      if_true, List.cons.injEq, true_and]
    exact ⟨ih'.1, ih'.2⟩

theorem isToken_shape {t : List Char} (h : isToken t = true) :
    ∃ mid : List Char, t = '{' :: '{' :: (mid ++ ['}', '}']) ∧ mid ≠ [] ∧
      ∀ c ∈ mid, c ≠ '}' := by
  have h' : tokenAt t = some (t, []) := of_decide_eq_true h
  match t, h' with
  | [], h' => simp [tokenAt] at h'
  | [c], h' => simp [tokenAt] at h'
  | c1 :: c2 :: r, h' =>
    simp only [tokenAt] at h'
    split at h'
    · split at h'
      next d1 d2 rest2 hdrop =>
        split at h'
        next hcond =>
          simp only [Option.some.injEq, Prod.mk.injEq] at h'
          obtain ⟨hteq, hrest⟩ := h'
          refine ⟨r.takeWhile (fun c => c ≠ '}'), hteq.symm, ?_, ?_⟩
          · intro hnil
            exact hcond.2.2 (by rw [hnil]; rfl)
          · intro c hc
            have hp := List.mem_takeWhile_imp hc
            simpa using hp
        next => exact absurd h' (by simp)
      all_goals exact absurd h' (by simp)
    · exact absurd h' (by simp)

theorem tokenAt_token_prefix {t : List Char} (h : isToken t = true)
    (suf : List Char) : tokenAt (t ++ suf) = some (t, suf) := by
  obtain ⟨mid, hteq, hne, hmem⟩ := isToken_shape h
  subst hteq
  have hsplit := takeWhile_append_stop (fun c => c ≠ '}') mid ('}' :: suf) '}'
    (fun c hc => decide_eq_true (hmem c hc)) (by simp)
  have hmidne : ¬(mid.isEmpty = true) := by
    cases mid with
    | nil => exact absurd rfl hne
    | cons a as => simp
  simp only [List.cons_append, List.append_assoc, List.nil_append]
  have hstep : tokenAt ('{' :: '{' :: (mid ++ '}' :: '}' :: suf)) =
      (match (mid ++ '}' :: '}' :: suf).dropWhile (fun c => c ≠ '}') with
        | d1 :: d2 :: rest2 =>
          if d1 = '}' ∧ d2 = '}' ∧
              ¬((mid ++ '}' :: '}' :: suf).takeWhile (fun c => c ≠ '}')).isEmpty then
            some ('{' :: '{' ::
              ((mid ++ '}' :: '}' :: suf).takeWhile (fun c => c ≠ '}') ++ ['}', '}']),
              rest2)
          else none
        | _ => none) := rfl
  rw [hstep, hsplit.1, hsplit.2]
  dsimp only
  rw [if_pos ⟨rfl, rfl, hmidne⟩]

theorem scanFuel_ne_nil_of_token_infix :
    ∀ (fuel : ℕ) (s pre t suf : List Char), s.length ≤ fuel →
      isToken t = true → s = pre ++ t ++ suf → scanFuel fuel s ≠ [] := by
  intro fuel
  induction fuel with
  | zero =>
    intro s pre t suf hle ht hs
    have hs0 : s = [] := List.length_eq_zero.mp (Nat.le_zero.mp hle)
    subst hs0
    rcases List.append_eq_nil.mp hs.symm with ⟨h1, -⟩
    rcases List.append_eq_nil.mp h1 with ⟨-, h4⟩
    subst h4
    exact absurd ht (by decide)
  | succ fuel ih =>
    intro s pre t suf hle ht hs
    cases pre with
    | nil =>
      simp only [List.nil_append] at hs
      subst hs
      have htok := tokenAt_token_prefix ht suf
      obtain ⟨mid, hteq, -, -⟩ := isToken_shape ht
      subst hteq
      simp only [List.cons_append] at htok ⊢
      simp only [scanFuel]
      rw [htok]
      simp
    | cons c pre' =>
      subst hs
      simp only [List.cons_append]
      simp only [scanFuel]
      cases htk : tokenAt (c :: (pre' ++ t ++ suf)) with
      | some v =>
        obtain ⟨tok, rest⟩ := v
        simp
      | none =>
        have hle' : (pre' ++ t ++ suf).length ≤ fuel := by
          simp only [List.cons_append, List.length_append, List.length_cons] at hle ⊢
          omega
        exact ih _ pre' t suf hle' ht rfl

theorem dedupFirst_cons_ne_nil {α : Type} [DecidableEq α] (a : α)
    (as : List α) : dedupFirst (a :: as) ≠ [] := by
  simp [dedupFirst, dedupFuel]

/-- C2 (amended): template expansion with the given variable map either
returns exactly the substituted text, in which case no complete
`\x7b\x7b[^\x7d]+\x7d\x7d` token occurs anywhere in it, or fails with a
`WorkflowError` at step `validate` listing the distinct residual tokens
the scan found in the substituted text (a nonempty list).  The original
claim's final clause is corrected: a token of the original text need not
survive substitution (see the counterexample), so its presence does not
imply failure. -/
theorem expandTemplates_residual_dichotomy (text : List Char)
    (vars : List (String × String)) :
    (∀ out, expandTemplates text vars = .ok out →
        out = applyVariables text vars ∧
        ∀ pre t suf, isToken t = true → out ≠ pre ++ t ++ suf) ∧
    (∀ toks step, expandTemplates text vars = .validationError toks step →
        step = "validate" ∧ toks ≠ [] ∧
        toks = dedupFirst (scanTokens (applyVariables text vars))) := by
  have heq : expandTemplates text vars =
      (match scanTokens (applyVariables text vars) with
        | [] => TemplateOutcome.ok (applyVariables text vars)
        | toks => .validationError (dedupFirst toks) "validate") := rfl
  constructor
  · intro out hout
    rw [heq] at hout
    cases hscan : scanTokens (applyVariables text vars) with
    | nil =>
      rw [hscan] at hout
      dsimp only at hout
      have houteq : out = applyVariables text vars :=
        (TemplateOutcome.ok.inj hout).symm
      refine ⟨houteq, ?_⟩
      intro pre t suf ht hcontra
      have hscan' : scanFuel out.length out = [] := by
        show scanTokens out = []
        rw [houteq, hscan]
      exact scanFuel_ne_nil_of_token_infix out.length out pre t suf le_rfl
        ht hcontra hscan'
    | cons a as =>
      rw [hscan] at hout
      dsimp only at hout
      exact absurd hout (by simp)
  · intro toks step htoks
    rw [heq] at htoks
    cases hscan : scanTokens (applyVariables text vars) with
    | nil =>
      rw [hscan] at htoks
      dsimp only at htoks
      exact absurd htoks (by simp)
    | cons a as =>
      rw [hscan] at htoks
      dsimp only at htoks
      obtain ⟨h1, h2⟩ := TemplateOutcome.validationError.inj htoks
      refine ⟨h2.symm, ?_, ?_⟩
      · rw [← h1]
        exact dedupFirst_cons_ne_nil a as
      · exact h1.symm

/-- C2 witness for the amended dichotomy: expanding the one-token text
`\x7b\x7bx\x7d\x7d` with an empty variable map fails at step `validate`
listing exactly that token. -/
theorem expandTemplates_residual_dichotomy_witness :
    expandTemplates c2wtext.toList [] =
        .validationError [c2wtext.toList] "validate" ∧
      ("validate" = "validate" ∧ ([c2wtext.toList] : List (List Char)) ≠ [] ∧
        [c2wtext.toList] =
          dedupFirst (scanTokens (applyVariables c2wtext.toList []))) :=
  ⟨by decide,
   (expandTemplates_residual_dichotomy c2wtext.toList []).2
     [c2wtext.toList] "validate" (by decide)⟩

/-- C2 counterexample to the claim's final clause ("a configuration
containing a token that is not a key of the variable map always fails
validation"): `c2text` contains the complete token `c2token` whose inner
text `c2inner` is not a key of `c2vars`, yet expansion succeeds, because
substituting the key `a` by the empty string destroys the token (the
`name` field `\x7b\x7bab\x7b\x7ba\x7d\x7d` becomes `\x7b\x7bab`, which
the residual regex no longer matches). -/
theorem expandTemplates_unresolved_token_counterexample :
    isToken c2token.toList = true ∧
    c2token.toList = '{' :: '{' :: (c2inner.toList ++ ['}', '}']) ∧
    (∀ kv ∈ c2vars, kv.1 ≠ c2inner) ∧
    c2text.toList = c2pre.toList ++ c2token.toList ++ c2suf.toList ∧
    expandTemplates c2text.toList c2vars = .ok c2expanded.toList :=
  ⟨by decide, by decide, by decide,
   by set_option maxRecDepth 8000 in decide,
   by set_option maxRecDepth 40000 in decide⟩


/-! ### C4: the entity+temporal window filter -/

theorem hasPairWithin_exists (dp : String → Option ℚ) (w : ℚ) :
    ∀ ts : List (String × String), hasPairWithin dp w ts = true →
      ∃ t ∈ ts, ∃ u ∈ ts, t.1 ≠ u.1 ∧ timeDiffLe dp t.2 u.2 w = true := by
  intro ts
  induction ts with
  | nil => intro h; simp [hasPairWithin] at h
  | cons t rest ih =>
    intro h
    simp only [hasPairWithin, Bool.or_eq_true] at h
    rcases h with h | h
    · obtain ⟨u, hu, hcond⟩ := List.any_eq_true.mp h
      simp only [Bool.and_eq_true, bne_iff_ne] at hcond
      exact ⟨t, List.mem_cons_self t rest, u, List.mem_cons_of_mem t hu,
        hcond.1, hcond.2⟩
    · obtain ⟨t2, ht2, u2, hu2, hne, hw⟩ := ih h
      exact ⟨t2, List.mem_cons_of_mem t ht2, u2, List.mem_cons_of_mem t hu2,
        hne, hw⟩

/-- C4 (amended): when `join.by = "entity+temporal"` AND `temporal.days`
is JS-truthy (present and nonzero), every entity of the returned join
result corresponds to an entry of the built entity map with the same
`entity` and `url` whose recorded timestamps contain two from distinct
lenses within `temporal.days × 86 400 000` ms of each other; in
particular such an entity's validating entry spans at least two lenses.
The truthiness guard is the correction: with `days` absent or `0` the
filter is skipped (see the counterexample). -/
theorem joinEntityTemporal_window (dp : String → Option ℚ) (cfg : JoinConfig)
    (lrs : List LensResult) (hjb : cfg.joinBy = JoinBy.entityTemporal)
    (hdays : qTruthy (cfg.temporal.bind (·.days)) = true) :
    ∀ ent ∈ (joinLensResults dp cfg lrs).entities,
      ∃ e ∈ (buildEntityMap ((cfg.entityMatch.bind (·.nameThreshold)).getD 0.85) lrs).map
          (·.2),
        e.entity = ent.entity ∧ e.url = ent.url ∧
        ∃ t ∈ e.timestamps, ∃ u ∈ e.timestamps, t.1 ≠ u.1 ∧
          timeDiffLe dp t.2 u.2 ((cfg.temporal.bind (·.days)).getD 0 * 86400000) = true := by
  intro ent hent
  simp only [joinLensResults, hjb, hdays] at hent
  obtain ⟨hent1, hp2⟩ := List.mem_filter.mp hent
  obtain ⟨hent0, hp1⟩ := List.mem_filter.mp hent1
  cases hf : List.find? (fun e => e.entity == ent.entity && e.url == ent.url)
      (List.map (fun x => x.2)
        (buildEntityMap ((cfg.entityMatch.bind fun x => x.nameThreshold).getD 0.85) lrs)) with
  | none => rw [hf] at hp1; simp at hp1
  | some entry =>
    rw [hf] at hp1
    dsimp only at hp1
    have hmem := List.mem_of_find?_eq_some hf
    have hpred := List.find?_some hf
    simp only [Bool.and_eq_true, beq_iff_eq] at hpred
    obtain ⟨t, ht, u, hu, hne, hw⟩ :=
      hasPairWithin_exists dp _ entry.timestamps hp1
    exact ⟨entry, hmem, hpred.1, hpred.2, t, ht, u, hu, hne, hw⟩


/-- C4 counterexample: with `join.by = "entity+temporal"` but
`temporal.days = 0` (present yet JS-falsy), the temporal filter is
skipped entirely (`temporalDays && …` fails), so with `minLensOverlap`
1 an entity whose only timestamp comes from a single lens IS returned —
refuting the claim that every returned entity has two distinct-lens
timestamps within the window. -/
theorem joinEntityTemporal_days0_counterexample :
    c4cfg.joinBy = .entityTemporal ∧
    c4cfg.temporal = some { days := some 0 } ∧
    (joinLensResults c4dp c4cfg c4lrs).entities.map
        (fun e => e.presentInLenses) = [["lensA"]] ∧
    (joinLensResults c4dp c4cfg c4lrs).entities.map
        (fun e => e.lensCount) = [1] :=
  ⟨rfl, rfl, by decide, by decide⟩

/-- C4 witness for the amended theorem: two lenses sharing URL `u` fold
into one entry; its timestamps `("A","t0")`, `("B","t1")` lie within the
one-day window, and the theorem exhibits that entry for the returned
entity. -/
theorem joinEntityTemporal_window_witness :
    ∃ e ∈ (buildEntityMap
        ((c4wcfg.entityMatch.bind (·.nameThreshold)).getD 0.85) c4wlrs).map (·.2),
      e.entity = c4went.entity ∧ e.url = c4went.url ∧
      ∃ t ∈ e.timestamps, ∃ u ∈ e.timestamps, t.1 ≠ u.1 ∧
        timeDiffLe c4dp t.2 u.2
          ((c4wcfg.temporal.bind (·.days)).getD 0 * 86400000) = true :=
  joinEntityTemporal_window c4dp c4wcfg c4wlrs rfl (by decide) c4went (by decide)


/-! ### C6: cancellation checkpoints and upstream cancels -/

/-- C6 (amended): the behaviour of the cancellation checkpoints.  At
lifecycle.harvest's post-creation checkpoint (lifecycle.ts:52) the
created webset IS cancelled upstream before returning null, and the
in-poll checkpoint (helpers.ts:138) emits an upstream cancel; but a
cancellation first observed at the post-poll checkpoint
(lifecycle.ts:72), or at semantic.cron's post-collect checkpoint
(part_001:930), returns null with exactly the already-accumulated
events — created websets are NOT cancelled upstream there. -/
theorem cancelledTask_checkpoint_behavior :
    (∀ (o : HarvestOracle) (args : HarvestArgs) (fuel : ℕ) (e : EntityArg),
      args.query.isSome = true → args.entity = some e → e.type.isSome = true →
      isCancelledAt o.cancelAt 0 = false → isCancelledAt o.cancelAt 1 = true →
      lifecycleHarvest o args fuel =
        some ([.progress "creating", .createWebset o.websetId,
               .cancelWebset o.websetId], .ok none)) ∧
    (∀ (o : PollOracle) (cancelAt : Option ℕ) (wsId : String) (deadline : ℚ)
        (fuel i n : ℕ),
      (o.fetch i).status ≠ "idle" → (o.fetch i).status ≠ "paused" →
      ¬(o.now i ≥ deadline) → isCancelledAt cancelAt n = true →
      pollGo o cancelAt wsId deadline (fuel + 1) i n =
        some ((if hasLastSearchProgress (o.fetch i) then [Ev.progress "searching"]
            else []) ++ [.cancelWebset wsId], n + 1, .ok ⟨o.fetch i, false⟩)) ∧
    (∀ (o : HarvestOracle) (args : HarvestArgs) (fuel : ℕ) (e : EntityArg)
        (pevs : List Ev) (n1 : ℕ) (pr : PollRes),
      args.query.isSome = true → args.entity = some e → e.type.isSome = true →
      isCancelledAt o.cancelAt 0 = false → isCancelledAt o.cancelAt 1 = false →
      pollUntilIdle o.poll o.cancelAt o.websetId (args.timeout.getD 300000) fuel 2 =
        some (pevs, n1, .ok pr) →
      isCancelledAt o.cancelAt n1 = true →
      lifecycleHarvest o args fuel =
        some ([.progress "creating", .createWebset o.websetId, .progress "polling"]
          ++ pevs, .ok none)) ∧
    (∀ (o : CronOracle) (args : CronArgs) (fuel : ℕ) (config : SemanticCronConfig)
        (st : CreateSt) (n2 : ℕ) (evs2 : List Ev),
      cronValidate o args = .ok config →
      isCancelledAt o.cancelAt 0 = false →
      args.existingWebsets = none →
      cronCreateLoop o config.lenses.length
          ((List.range config.lenses.length).zip config.lenses)
          { n := 1, created := 0, websetIds := [], enrichmentMaps := []
            evs := [.progress "validating"] } = (st, false) →
      isCancelledAt o.cancelAt st.n = false →
      cronPollLoop o config.lenses.length st.websetIds (args.timeout.getD 300000)
          fuel ((List.range config.lenses.length).zip config.lenses)
          (st.n + 1) st.evs = some (.done n2 evs2) →
      isCancelledAt o.cancelAt n2 = true →
      semanticCron o args fuel =
        some (evs2 ++ [Ev.progress "collecting items"], .ok none)) := by
  refine ⟨?_, ?_, ?_, ?_⟩
  · intro o args fuel e hq hent htype h0 h1
    obtain ⟨q, hqe⟩ := Option.isSome_iff_exists.mp hq
    obtain ⟨ty, htye⟩ := Option.isSome_iff_exists.mp htype
    unfold lifecycleHarvest
    dsimp only
    rw [hqe, hent]
    simp [htype, htye, h0, h1]
  · intro o cancelAt wsId deadline fuel i n h1 h2 h3 h4
    simp only [pollGo]
    rw [if_neg (by simpa using h1), if_neg (by simpa using h2),
      if_neg (by simpa using h3), if_pos h4]
  · intro o args fuel e pevs n1 pr hq hent htype h0 h1 hpoll hn1
    obtain ⟨q, hqe⟩ := Option.isSome_iff_exists.mp hq
    obtain ⟨ty, htye⟩ := Option.isSome_iff_exists.mp htype
    unfold lifecycleHarvest
    dsimp only
    rw [hqe, hent]
    simp [htype, htye, h0, h1, hpoll, hn1]
  · intro o args fuel config st n2 evs2 hval h0 hex hcreate hstn hpoll hn2
    unfold semanticCron
    dsimp only
    rw [hval]
    simp [h0, hex, hcreate, hstn, hpoll, hn2]


/-- C6 witness: concrete runs exercising each checkpoint of the amended
theorem — post-creation cancel (cancel emitted), in-poll cancel (cancel
emitted), post-poll cancel (no cancel emitted), post-collect cancel (no
cancel emitted). -/
theorem cancelledTask_checkpoint_behavior_witness :
    lifecycleHarvest c6postCreateOracle c6args 0 =
        some ([.progress "creating", .createWebset "ws1", .cancelWebset "ws1"],
          .ok none) ∧
    pollGo c6pollOracle (some 0) "w" 1 (0 + 1) 0 0 =
        some ((if hasLastSearchProgress (c6pollOracle.fetch 0) then
            [Ev.progress "searching"] else []) ++ [.cancelWebset "w"], 0 + 1,
          .ok ⟨c6pollOracle.fetch 0, false⟩) ∧
    lifecycleHarvest c6oracle c6args 1 =
        some ([.progress "creating", .createWebset "ws1", .progress "polling"]
          ++ ([] : List Ev), .ok none) ∧
    semanticCron c6cronOracle c6cronArgs 1 =
        some (c6cronEvs2 ++ [Ev.progress "collecting items"], .ok none) :=
  ⟨cancelledTask_checkpoint_behavior.1 c6postCreateOracle c6args 0
      { type := some "company" } (by decide) (by decide) (by decide)
      (by decide) (by decide),
   cancelledTask_checkpoint_behavior.2.1 c6pollOracle (some 0) "w" 1 0 0 0
      (by decide) (by decide) (by decide) (by decide),
   cancelledTask_checkpoint_behavior.2.2.1 c6oracle c6args 1
      { type := some "company" } [] 2 { webset := { status := "idle" }, timedOut := false }
      (by decide) (by decide) (by decide) (by decide) (by decide) (by decide)
      (by decide),
   cancelledTask_checkpoint_behavior.2.2.2 c6cronOracle c6cronArgs 1 c6cronCfg
      c6cronSt 4 c6cronEvs2 (by decide) (by decide) (by decide) rfl (by decide)
      rfl (by decide)⟩

/-- C6 counterexample: a lifecycle.harvest run cancelled first at the
post-poll checkpoint and a semantic.cron run cancelled first at the
post-collect checkpoint both return null with a `createWebset` event and
NO `cancelWebset` event — refuting "the upstream cancel is invoked at
least once for each created webset ... at every cancellation
checkpoint". -/
theorem cancelledTask_no_upstream_cancel_counterexample :
    (lifecycleHarvest c6oracle c6args 1 =
        some ([.progress "creating", .createWebset "ws1", .progress "polling"],
          .ok none) ∧
      (∀ id, Ev.cancelWebset id ∉
        ([.progress "creating", .createWebset "ws1", .progress "polling"] :
          List Ev))) ∧
    (semanticCron c6cronOracle c6cronArgs 1 =
        some (c6cronEvs2 ++ [Ev.progress "collecting items"], .ok none) ∧
      Ev.createWebset "wsC" ∈ c6cronEvs2 ++ [Ev.progress "collecting items"] ∧
      (∀ id, Ev.cancelWebset id ∉ c6cronEvs2 ++ [Ev.progress "collecting items"])) := by
  refine ⟨⟨by decide, ?_⟩, rfl, by decide, ?_⟩
  · intro id
    simp
  · intro id
    simp [c6cronEvs2]

end Schwartz
